import Mathlib

/-!
# Verification of the hubs-cloud bot orchestrator and ghost runner

This file gives a shallow embedding, in Lean 4, of the parts of the
repository relevant to the frozen claims:

* the runner supervisor of
  `community-edition/services/bot-orchestrator/app.js` (second, queue-based
  version: `startRunner`, `stopRunner`, `ensureRunnerState`,
  `fillQueuedRunnerSlots`, the HTTP handlers and the child `exit` handler);
* the ghost-runner simulator of `src/unnamed/part_002`
  (`createTimekeeper`, `fetchGltfJson`/`parseGlbJson`,
  `segmentIntersectsUnitAabb`, `isPathClearWithColliders`,
  `normalizeBotsConfig`, `reconcileBots`, `releaseReservation`,
  `reserveTarget`, `pickPatrolPoint`, `startWalking`, `setIdle`, and the
  `bot_command` handler).

JavaScript `Map`s are modelled as insertion-ordered association lists,
JavaScript numbers as rationals or reals (reals where `Math.hypot`,
`Math.sqrt`-like operations occur), and `Math.random` / `timekeeper.nowMs`
calls as reads from oracle streams threaded through the state.
-/

/-! ## Association lists modelling JavaScript `Map` (insertion ordered) -/

/-- `Map.get`: first (unique) binding of a key. -/
def aGet {α : Type} : List (String × α) → String → Option α
  | [], _ => none
  | (k, v) :: rest, key => if k = key then some v else aGet rest key

/-- `Map.set`: replace in place if the key is present, else append. -/
def aSet {α : Type} : List (String × α) → String → α → List (String × α)
  | [], key, val => [(key, val)]
  | (k, v) :: rest, key, val =>
    if k = key then (key, val) :: rest else (k, v) :: aSet rest key val

/-- `Map.delete`: remove the binding of a key, if present. -/
def aDel {α : Type} : List (String × α) → String → List (String × α)
  | [], _ => []
  | (k, v) :: rest, key => if k = key then rest else (k, v) :: aDel rest key

/-- The key list of a map, in insertion order. -/
def aKeys {α : Type} (m : List (String × α)) : List String := m.map Prod.fst

/-! ## Runner supervisor (bot-orchestrator/app.js, queue-based version)

State: `roomConfigs : Map hubSid → {bots, updatedAt}` (we keep only the
normalized `bots` record, `updatedAt` plays no role), `roomRunners :
Map hubSid → child handle` (we keep only the key set, as a list), and the
FIFO array `queuedRunnerHubs`.  `MAX_ACTIVE_ROOMS` and
`canAutostartRunners()` (both fixed at startup from the environment) are
parameters.  Child handles and timers carry no data relevant to the
claims; a pending restart timer firing is modelled as a separate event. -/

/-- Image of the orchestrator's `normalizeConfig` (enabled/chat booleans,
count a clamped integer, mobility one of three strings). -/
structure BotsCfg where
  enabled : Bool
  count : Nat
  mobility : String
  chat_enabled : Bool
deriving Repr, DecidableEq

/-- `room.bots.enabled && room.bots.count > 0`, the condition under which a
room wants a runner. -/
def BotsCfg.wants (c : BotsCfg) : Bool := c.enabled && decide (0 < c.count)

structure OrchState where
  configs : List (String × BotsCfg)
  runners : List String
  queue : List String
deriving Repr

/-- `canStartMoreRunners()`. -/
def canStartMore (MAX : Nat) (s : OrchState) : Bool :=
  decide (s.runners.length < MAX)

/-- `enqueueHub`. -/
def enqueueHub (s : OrchState) (h : String) : OrchState :=
  if h ∈ s.queue then s else { s with queue := s.queue ++ [h] }

/-- `dequeueHub` (indexOf + splice of the first occurrence). -/
def dequeueHub (s : OrchState) (h : String) : OrchState :=
  { s with queue := s.queue.erase h }

/-- `stopRunner`: dequeue, then kill and forget the child if present. -/
def stopRunner (s : OrchState) (h : String) : OrchState :=
  let s1 := dequeueHub s h
  if h ∈ s1.runners then { s1 with runners := s1.runners.erase h } else s1

/-- `startRunner`: returns the new state and the boolean the source
returns. -/
def startRunner (MAX : Nat) (autostart : Bool) (s : OrchState) (h : String) :
    OrchState × Bool :=
  if autostart = false then (s, false)
  else if h ∈ s.runners then (s, true)
  else if canStartMore MAX s = false then (s, false)
  else ({ s with runners := s.runners ++ [h] }, true)

theorem startRunner_queue (MAX : Nat) (autostart : Bool) (s : OrchState)
    (h : String) : (startRunner MAX autostart s h).1.queue = s.queue := by
  unfold startRunner
  repeat' split
  all_goals rfl

theorem startRunner_configs (MAX : Nat) (autostart : Bool) (s : OrchState)
    (h : String) : (startRunner MAX autostart s h).1.configs = s.configs := by
  unfold startRunner
  repeat' split
  all_goals rfl

/-- The `while` loop of `fillQueuedRunnerSlots` (entered only when
autostart is enabled). -/
def fillLoop (MAX : Nat) (autostart : Bool) (s : OrchState) : OrchState :=
  match hq : s.queue with
  | [] => s
  | hub :: rest =>
    if canStartMore MAX s then
      let s1 : OrchState := { s with queue := rest }
      match aGet s1.configs hub with
      | none => fillLoop MAX autostart s1
      | some c =>
        if c.wants then
          let r := startRunner MAX autostart s1 hub
          if r.2 then fillLoop MAX autostart r.1
          else { r.1 with queue := hub :: r.1.queue }
        else fillLoop MAX autostart s1
    else s
termination_by s.queue.length
decreasing_by
  all_goals simp [startRunner_queue, hq]

/-- `fillQueuedRunnerSlots`. -/
def fillQueuedRunnerSlots (MAX : Nat) (autostart : Bool) (s : OrchState) :
    OrchState :=
  if autostart then fillLoop MAX autostart s else s

inductive RunnerState
  | running
  | queued_capacity
  | stopped
deriving DecidableEq, Repr

/-- `ensureRunnerState`. -/
def ensureRunnerState (MAX : Nat) (autostart : Bool) (s : OrchState)
    (h : String) : OrchState × RunnerState :=
  match aGet s.configs h with
  | none => (stopRunner s h, .stopped)
  | some c =>
    if c.wants = false then (stopRunner s h, .stopped)
    else if h ∈ s.runners then (dequeueHub s h, .running)
    else if autostart = false then (dequeueHub s h, .stopped)
    else if canStartMore MAX s then
      let r := startRunner MAX autostart s h
      if r.2 then (r.1, .running)
      else (enqueueHub r.1 h, .queued_capacity)
    else (enqueueHub s h, .queued_capacity)

/-- The `POST /internal/bots/room-config` handler (after the 400 guard):
store the normalized config, ensure the runner state, fill queued slots. -/
def handleRoomConfig (MAX : Nat) (autostart : Bool) (s : OrchState)
    (hub : String) (cfg : BotsCfg) : OrchState :=
  let s1 : OrchState := { s with configs := aSet s.configs hub cfg }
  let s2 := (ensureRunnerState MAX autostart s1 hub).1
  fillQueuedRunnerSlots MAX autostart s2

/-- The `POST /internal/bots/room-stop` handler (after the 400 guard). -/
def handleRoomStop (MAX : Nat) (autostart : Bool) (s : OrchState)
    (hub : String) : OrchState :=
  let s1 : OrchState := { s with configs := aDel s.configs hub }
  fillQueuedRunnerSlots MAX autostart (stopRunner s1 hub)

/-- The child `exit` callback.  Scheduling the 3 s restart timer leaves the
supervisor state unchanged; the timer firing is `handleRestartTimer`. -/
def handleChildExit (MAX : Nat) (autostart : Bool) (s : OrchState)
    (hub : String) : OrchState :=
  let s1 : OrchState := { s with runners := s.runners.erase hub }
  let s2 : OrchState :=
    match aGet s1.configs hub with
    | some c =>
      if c.wants && autostart then
        if canStartMore MAX s1 then s1 else enqueueHub s1 hub
      else s1
    | none => s1
  fillQueuedRunnerSlots MAX autostart s2

/-- A pending restart timer firing. -/
def handleRestartTimer (MAX : Nat) (autostart : Bool) (s : OrchState)
    (hub : String) : OrchState :=
  let r := startRunner MAX autostart s hub
  let s1 := if r.2 then r.1 else enqueueHub r.1 hub
  fillQueuedRunnerSlots MAX autostart s1

inductive OrchEvent
  | roomConfig (hub : String) (cfg : BotsCfg)
  | roomStop (hub : String)
  | childExit (hub : String)
  | restartTimer (hub : String)

def orchStep (MAX : Nat) (autostart : Bool) (s : OrchState) :
    OrchEvent → OrchState
  | .roomConfig hub cfg => handleRoomConfig MAX autostart s hub cfg
  | .roomStop hub => handleRoomStop MAX autostart s hub
  | .childExit hub => handleChildExit MAX autostart s hub
  | .restartTimer hub => handleRestartTimer MAX autostart s hub

def orchInit : OrchState := { configs := [], runners := [], queue := [] }

def orchRun (MAX : Nat) (autostart : Bool) (es : List OrchEvent) : OrchState :=
  es.foldl (orchStep MAX autostart) orchInit

/-! ### The supervisor concurrency invariant -/

/-- The part of the invariant that holds at every point inside a handler:
no duplicate runners, no duplicate queue entries, runners and queue
disjoint, at most `MAX` runners, and no runners at all when autostart is
disabled. -/
def WeakInv (MAX : Nat) (autostart : Bool) (s : OrchState) : Prop :=
  s.runners.Nodup ∧ s.queue.Nodup ∧ (∀ x ∈ s.runners, x ∉ s.queue) ∧
    s.runners.length ≤ MAX ∧ (autostart = false → s.runners = [])

/-- The full invariant holding between handler invocations: additionally,
the queue is only ever non-empty while all slots are taken. -/
def OrchInv (MAX : Nat) (autostart : Bool) (s : OrchState) : Prop :=
  WeakInv MAX autostart s ∧
    (autostart = true → s.queue ≠ [] → MAX ≤ s.runners.length)

theorem weakInv_configs (MAX : Nat) (a : Bool) (s : OrchState)
    (cs : List (String × BotsCfg)) :
    WeakInv MAX a { s with configs := cs } ↔ WeakInv MAX a s := Iff.rfl

theorem weakInv_dequeue (MAX : Nat) (a : Bool) (s : OrchState) (h : String)
    (hW : WeakInv MAX a s) : WeakInv MAX a (dequeueHub s h) := by
  obtain ⟨h1, h2, h3, h4, h5⟩ := hW
  refine ⟨h1, h2.erase h, ?_, h4, h5⟩
  intro x hx hmem
  exact h3 x hx (List.mem_of_mem_erase hmem)

theorem inv5_dequeue (MAX : Nat) (s : OrchState) (h : String)
    (h5 : s.queue ≠ [] → MAX ≤ s.runners.length) :
    (dequeueHub s h).queue ≠ [] → MAX ≤ (dequeueHub s h).runners.length := by
  intro hne
  apply h5
  intro hnil
  apply hne
  simp [dequeueHub, hnil]

theorem weakInv_stop (MAX : Nat) (a : Bool) (s : OrchState) (h : String)
    (hW : WeakInv MAX a s) : WeakInv MAX a (stopRunner s h) := by
  obtain ⟨h1, h2, h3, h4, h5⟩ := weakInv_dequeue MAX a s h hW
  unfold stopRunner
  dsimp only
  split
  · refine ⟨h1.erase h, h2, ?_, ?_, ?_⟩
    · intro x hx
      exact h3 x (List.mem_of_mem_erase hx)
    · exact le_trans ((List.erase_sublist h _).length_le) h4
    · intro ha
      rw [h5 ha]
      simp
  · exact ⟨h1, h2, h3, h4, h5⟩

theorem weakInv_enqueue (MAX : Nat) (a : Bool) (s : OrchState) (h : String)
    (hnr : h ∉ s.runners) (hW : WeakInv MAX a s) :
    WeakInv MAX a (enqueueHub s h) := by
  obtain ⟨h1, h2, h3, h4, h5⟩ := hW
  unfold enqueueHub
  split
  · exact ⟨h1, h2, h3, h4, h5⟩
  · rename_i hmem
    refine ⟨h1, ?_, ?_, h4, h5⟩
    · simp [List.nodup_append, h2, hmem]
    · intro x hx
      simp only [List.mem_append, List.mem_singleton]
      rintro (hq | rfl)
      · exact h3 x hx hq
      · exact hnr hx

theorem weakInv_start (MAX : Nat) (a : Bool) (s : OrchState) (h : String)
    (hq : h ∉ s.queue) (hW : WeakInv MAX a s) :
    WeakInv MAX a (startRunner MAX a s h).1 := by
  obtain ⟨h1, h2, h3, h4, h5⟩ := hW
  unfold startRunner
  split
  · exact ⟨h1, h2, h3, h4, h5⟩
  split
  · exact ⟨h1, h2, h3, h4, h5⟩
  split
  · exact ⟨h1, h2, h3, h4, h5⟩
  · rename_i hauto hmem hcap
    refine ⟨?_, h2, ?_, ?_, ?_⟩
    · simp [List.nodup_append, h1, hmem]
    · intro x hx
      simp only [List.mem_append, List.mem_singleton] at hx
      rcases hx with hx | rfl
      · exact h3 x hx
      · exact hq
    · have : s.runners.length < MAX := by
        simpa [canStartMore] using hcap
      simpa using this
    · intro hfalse
      simp [hfalse] at hauto

theorem startRunner_of_canStart (MAX : Nat) (s : OrchState) (h : String)
    (hc : canStartMore MAX s = true) : (startRunner MAX true s h).2 = true := by
  unfold startRunner
  simp only [hc]
  split
  · rename_i hfalse
    exact absurd hfalse (by simp)
  split
  · rfl
  · rfl

/-! Branch-wise equation lemmas for `fillLoop`. -/

theorem fillLoop_nil (MAX : Nat) (a : Bool) (s : OrchState)
    (h : s.queue = []) : fillLoop MAX a s = s := by
  rw [fillLoop.eq_def]
  split
  · rfl
  · rename_i hub' rest' hq'
    rw [h] at hq'
    exact absurd hq' (by simp)

theorem fillLoop_nocap (MAX : Nat) (a : Bool) (s : OrchState)
    (hc : canStartMore MAX s = false) : fillLoop MAX a s = s := by
  rw [fillLoop.eq_def]
  split
  · rfl
  · simp [hc]

theorem fillLoop_skip (MAX : Nat) (a : Bool) (s : OrchState) (hub : String)
    (rest : List String) (hq : s.queue = hub :: rest)
    (hc : canStartMore MAX s = true)
    (hg : aGet s.configs hub = none ∨
      ∃ c, aGet s.configs hub = some c ∧ c.wants = false) :
    fillLoop MAX a s = fillLoop MAX a { s with queue := rest } := by
  rw [fillLoop.eq_def]
  split
  · rename_i hq'
    rw [hq'] at hq
    exact absurd hq (by simp)
  · rename_i hub' rest' hq'
    rw [hq] at hq'
    injection hq' with e1 e2
    subst e1
    subst e2
    rcases hg with hg | ⟨c, hg, hw⟩
    · simp [hc, hg]
    · simp [hc, hg, hw]

theorem fillLoop_started (MAX : Nat) (a : Bool) (s : OrchState) (hub : String)
    (rest : List String) (c : BotsCfg) (hq : s.queue = hub :: rest)
    (hc : canStartMore MAX s = true) (hg : aGet s.configs hub = some c)
    (hw : c.wants = true)
    (hr : (startRunner MAX a { s with queue := rest } hub).2 = true) :
    fillLoop MAX a s =
      fillLoop MAX a (startRunner MAX a { s with queue := rest } hub).1 := by
  rw [fillLoop.eq_def]
  split
  · rename_i hq'
    rw [hq'] at hq
    exact absurd hq (by simp)
  · rename_i hub' rest' hq'
    rw [hq] at hq'
    injection hq' with e1 e2
    subst e1
    subst e2
    simp [hc, hg, hw, hr]

theorem fillLoop_spec (MAX : Nat) (s : OrchState) (hW : WeakInv MAX true s) :
    WeakInv MAX true (fillLoop MAX true s) ∧
      ((fillLoop MAX true s).queue = [] ∨
        MAX ≤ (fillLoop MAX true s).runners.length) := by
  induction s using fillLoop.induct MAX true with
  | case1 x hq =>
    rw [fillLoop_nil MAX true x hq]
    exact ⟨hW, Or.inl hq⟩
  | case2 x hub rest hq hcan s1 hget ih =>
    rw [fillLoop_skip MAX true x hub rest hq hcan (Or.inl hget)]
    apply ih
    obtain ⟨h1, h2, h3, h4, h5⟩ := hW
    rw [hq] at h2 h3
    exact ⟨h1, h2.of_cons, fun x hx => fun hmem => h3 x hx (by simp [hmem]),
      h4, h5⟩
  | case3 x hub rest hq hcan s1 c hget hwants r hr ih =>
    rw [fillLoop_started MAX true x hub rest c hq hcan hget hwants hr]
    apply ih
    apply weakInv_start
    · obtain ⟨h1, h2, h3, h4, h5⟩ := hW
      rw [hq] at h2
      exact (List.nodup_cons.mp h2).1
    · obtain ⟨h1, h2, h3, h4, h5⟩ := hW
      rw [hq] at h2 h3
      exact ⟨h1, h2.of_cons,
        fun x hx => fun hmem => h3 x hx (by simp [hmem]), h4, h5⟩
  | case4 x hub rest hq hcan s1 c hget hwants r hr =>
    exfalso
    apply hr
    apply startRunner_of_canStart
    exact hcan
  | case5 x hub rest hq hcan s1 c hget hwants ih =>
    rw [fillLoop_skip MAX true x hub rest hq hcan
      (Or.inr ⟨c, hget, by simpa using hwants⟩)]
    apply ih
    obtain ⟨h1, h2, h3, h4, h5⟩ := hW
    rw [hq] at h2 h3
    exact ⟨h1, h2.of_cons, fun x hx => fun hmem => h3 x hx (by simp [hmem]),
      h4, h5⟩
  | case6 x hub rest hq hcan =>
    rw [fillLoop_nocap MAX true x (by simpa using hcan)]
    refine ⟨hW, Or.inr ?_⟩
    have : ¬ x.runners.length < MAX := by
      simpa [canStartMore] using hcan
    omega

theorem fillQueued_inv (MAX : Nat) (a : Bool) (s : OrchState)
    (hW : WeakInv MAX a s) : OrchInv MAX a (fillQueuedRunnerSlots MAX a s) := by
  unfold fillQueuedRunnerSlots
  cases a with
  | false =>
    refine ⟨by simpa using hW, ?_⟩
    intro hcontra
    exact absurd hcontra (by simp)
  | true =>
    simp only [if_pos rfl]
    obtain ⟨h1, h2⟩ := fillLoop_spec MAX s hW
    refine ⟨h1, fun _ hne => ?_⟩
    rcases h2 with h2 | h2
    · exact absurd h2 hne
    · exact h2


theorem startRunner_false (MAX : Nat) (a : Bool) (s : OrchState) (h : String)
    (hr : (startRunner MAX a s h).2 = false) :
    (startRunner MAX a s h).1 = s ∧ (a = false ∨ h ∉ s.runners) := by
  unfold startRunner at hr ⊢
  split
  · rename_i haf
    exact ⟨rfl, Or.inl haf⟩
  rename_i haf
  rw [if_neg haf] at hr
  split
  · rename_i hrun
    rw [if_pos hrun] at hr
    exact absurd hr (by simp)
  rename_i hrun
  rw [if_neg hrun] at hr
  split
  · exact ⟨rfl, Or.inr hrun⟩
  · rename_i hcap
    rw [if_neg hcap] at hr
    exact absurd hr (by simp)

theorem queue_nil_of_slot (MAX : Nat) (a : Bool) (s : OrchState)
    (h5 : a = true → s.queue ≠ [] → MAX ≤ s.runners.length) (ha : ¬a = false)
    (hcap : canStartMore MAX s = true) : s.queue = [] := by
  have hat : a = true := by
    cases a
    · exact absurd rfl ha
    · rfl
  by_contra hne
  have hge := h5 hat hne
  have hlt : s.runners.length < MAX := by
    simpa [canStartMore] using hcap
  omega

theorem weakInv_ensure (MAX : Nat) (a : Bool) (s : OrchState) (h : String)
    (hI : OrchInv MAX a s) : WeakInv MAX a (ensureRunnerState MAX a s h).1 := by
  obtain ⟨hW, h5⟩ := hI
  unfold ensureRunnerState
  split
  · exact weakInv_stop MAX a s h hW
  rename_i c hc
  dsimp only
  split
  · exact weakInv_stop MAX a s h hW
  split
  · exact weakInv_dequeue MAX a s h hW
  split
  · exact weakInv_dequeue MAX a s h hW
  split
  · rename_i hwants hrun hauto hcap
    have hqnil : s.queue = [] := queue_nil_of_slot MAX a s h5 hauto hcap
    split
    · exact weakInv_start MAX a s h (by simp [hqnil]) hW
    · rename_i hr
      exfalso
      have hat : a = true := by
        cases a
        · exact absurd rfl hauto
        · rfl
      subst hat
      exact hr (startRunner_of_canStart MAX s h hcap)
  · rename_i hwants hrun hauto hcap
    exact weakInv_enqueue MAX a s h hrun hW

theorem orchInv_roomConfig (MAX : Nat) (a : Bool) (s : OrchState)
    (hub : String) (cfg : BotsCfg) (hI : OrchInv MAX a s) :
    OrchInv MAX a (handleRoomConfig MAX a s hub cfg) := by
  unfold handleRoomConfig
  apply fillQueued_inv
  apply weakInv_ensure
  exact ⟨hI.1, hI.2⟩

theorem orchInv_roomStop (MAX : Nat) (a : Bool) (s : OrchState)
    (hub : String) (hI : OrchInv MAX a s) :
    OrchInv MAX a (handleRoomStop MAX a s hub) := by
  unfold handleRoomStop
  apply fillQueued_inv
  exact weakInv_stop MAX a _ hub hI.1

theorem orchInv_childExit (MAX : Nat) (a : Bool) (s : OrchState)
    (hub : String) (hI : OrchInv MAX a s) :
    OrchInv MAX a (handleChildExit MAX a s hub) := by
  obtain ⟨⟨h1, h2, h3, h4, h6⟩, h5⟩ := hI
  unfold handleChildExit
  apply fillQueued_inv
  have hW1 : WeakInv MAX a { s with runners := s.runners.erase hub } := by
    refine ⟨h1.erase hub, h2, ?_, ?_, ?_⟩
    · intro x hx
      exact h3 x (List.mem_of_mem_erase hx)
    · exact le_trans ((List.erase_sublist hub s.runners).length_le) h4
    · intro ha
      rw [h6 ha]
      simp
  split
  · rename_i c hc
    split
    · split
      · exact hW1
      · apply weakInv_enqueue
        · exact h1.not_mem_erase
        · exact hW1
    · exact hW1
  · exact hW1

theorem orchInv_restartTimer (MAX : Nat) (a : Bool) (s : OrchState)
    (hub : String) (hI : OrchInv MAX a s) :
    OrchInv MAX a (handleRestartTimer MAX a s hub) := by
  obtain ⟨hW, h5⟩ := hI
  unfold handleRestartTimer
  apply fillQueued_inv
  dsimp only
  split
  · rename_i hr
    have hnq : hub ∉ s.queue := by
      unfold startRunner at hr
      by_cases haf : a = false
      · rw [if_pos haf] at hr
        exact absurd hr (by simp)
      · rw [if_neg haf] at hr
        by_cases hrun : hub ∈ s.runners
        · intro hmem
          exact hW.2.2.1 hub hrun hmem
        · rw [if_neg hrun] at hr
          by_cases hcap : canStartMore MAX s = false
          · rw [if_pos hcap] at hr
            exact absurd hr (by simp)
          · have hqnil : s.queue = [] :=
              queue_nil_of_slot MAX a s h5 haf (by simpa using hcap)
            simp [hqnil]
    exact weakInv_start MAX a s hub hnq hW
  · rename_i hr
    obtain ⟨he, hcase⟩ := startRunner_false MAX a s hub (by simpa using hr)
    rw [he]
    apply weakInv_enqueue
    · rcases hcase with haf | hrun
      · rw [hW.2.2.2.2 haf]
        simp
      · exact hrun
    · exact hW

theorem orchInv_step (MAX : Nat) (a : Bool) (s : OrchState) (e : OrchEvent)
    (hI : OrchInv MAX a s) : OrchInv MAX a (orchStep MAX a s e) := by
  cases e with
  | roomConfig hub cfg => exact orchInv_roomConfig MAX a s hub cfg hI
  | roomStop hub => exact orchInv_roomStop MAX a s hub hI
  | childExit hub => exact orchInv_childExit MAX a s hub hI
  | restartTimer hub => exact orchInv_restartTimer MAX a s hub hI

theorem orchInv_init (MAX : Nat) (a : Bool) : OrchInv MAX a orchInit := by
  refine ⟨⟨?_, ?_, ?_, ?_, ?_⟩, ?_⟩ <;> simp [orchInit, WeakInv]

theorem orchInv_run (MAX : Nat) (a : Bool) (es : List OrchEvent) :
    OrchInv MAX a (orchRun MAX a es) := by
  unfold orchRun
  have hgen : ∀ (l : List OrchEvent) (s : OrchState), OrchInv MAX a s →
      OrchInv MAX a (l.foldl (orchStep MAX a) s) := by
    intro l
    induction l with
    | nil => intro s hs; exact hs
    | cons e tl ih =>
      intro s hs
      exact ih _ (orchInv_step MAX a s e hs)
  exact hgen es orchInit (orchInv_init MAX a)

/-- C1: after any sequence of room-config requests, room-stop requests,
child-process exit events (and restart-timer firings), the supervisor
state between handler invocations has at most `MAX_ACTIVE_ROOMS` entries
in `roomRunners`, no duplicate hubs in `queuedRunnerHubs`, and no hub both
in `roomRunners` and in the queue. -/
theorem C1_supervisor_concurrency (MAX : Nat) (autostart : Bool)
    (es : List OrchEvent) :
    (orchRun MAX autostart es).runners.length ≤ MAX ∧
      (orchRun MAX autostart es).queue.Nodup ∧
      ∀ h : String, ¬(h ∈ (orchRun MAX autostart es).runners ∧
        h ∈ (orchRun MAX autostart es).queue) := by
  obtain ⟨⟨h1, h2, h3, h4, h6⟩, h5⟩ := orchInv_run MAX autostart es
  exact ⟨h4, h2, fun h => fun ⟨hr, hqm⟩ => h3 h hr hqm⟩

/-! ## Timekeeper (`createTimekeeper`, ghost runner)

JavaScript numbers are modelled as `Option ℚ` where offsets can become
non-finite (`none` = NaN/±∞); the wall clock `Date.now()` is a finite
oracle input supplied per call.  `update()`'s freshly measured offset is
likewise an oracle input. -/

structure TimeState where
  averageOffset : Option ℚ
  initialized : Bool
  lastNow : ℚ
deriving Repr

/-- `let averageOffset = 0; let initialized = false; let lastNow = 0`. -/
def initialTimeState : TimeState :=
  { averageOffset := some 0, initialized := false, lastNow := 0 }

/-- One `update()` call with measured `offset` (oracle input): seed on the
first sample, smooth by a factor 0.2 afterwards. -/
def updateOffset (s : TimeState) (off : Option ℚ) : TimeState :=
  if s.initialized = false then
    { s with averageOffset := off, initialized := true }
  else
    { s with averageOffset :=
        match s.averageOffset, off with
        | some avg, some o => some (avg + (o - avg) * (1 / 5))
        | _, _ => none }

/-- The value `Date.now() + (initialized ? averageOffset : 0)` before the
finiteness fallback: `none` (non-finite) collapses to the wall clock. -/
def rawNow (s : TimeState) (wall : ℚ) : ℚ :=
  match (if s.initialized then s.averageOffset else some 0) with
  | some o => wall + o
  | none => wall

/-- `nowMs()`: returns the clamped time and the updated state. -/
def nowMs (s : TimeState) (wall : ℚ) : ℚ × TimeState :=
  let now1 := rawNow s wall
  let now2 := if now1 < s.lastNow then s.lastNow else now1
  (now2, { s with lastNow := now2 })

inductive TimeEvent
  | update (off : Option ℚ)
  | tick (wall : ℚ)

/-- The sequence of values returned by `nowMs()` along a trace of calls
interleaved with offset updates. -/
def timeTrace : TimeState → List TimeEvent → List ℚ
  | _, [] => []
  | s, .update off :: es => timeTrace (updateOffset s off) es
  | s, .tick w :: es => (nowMs s w).1 :: timeTrace (nowMs s w).2 es

theorem nowMs_ge_last (s : TimeState) (wall : ℚ) : s.lastNow ≤ (nowMs s wall).1 := by
  unfold nowMs
  dsimp only
  split
  · exact le_refl _
  · rename_i hlt
    exact le_of_not_lt hlt

theorem nowMs_last_eq (s : TimeState) (wall : ℚ) :
    (nowMs s wall).2.lastNow = (nowMs s wall).1 := rfl

theorem updateOffset_last (s : TimeState) (off : Option ℚ) :
    (updateOffset s off).lastNow = s.lastNow := by
  unfold updateOffset
  split
  · rfl
  · rfl

theorem timeTrace_ge (es : List TimeEvent) : ∀ s : TimeState,
    ∀ x ∈ timeTrace s es, s.lastNow ≤ x := by
  induction es with
  | nil =>
    intro s x hx
    simp [timeTrace] at hx
  | cons e tl ih =>
    intro s x hx
    cases e with
    | update off =>
      rw [timeTrace] at hx
      have := ih (updateOffset s off) x hx
      rwa [updateOffset_last] at this
    | tick w =>
      rw [timeTrace] at hx
      rcases List.mem_cons.mp hx with rfl | hx
      · exact nowMs_ge_last s w
      · have := ih (nowMs s w).2 x hx
        rw [nowMs_last_eq] at this
        exact le_trans (nowMs_ge_last s w) this

theorem timeTrace_chain (es : List TimeEvent) : ∀ s : TimeState,
    (timeTrace s es).Chain' (· ≤ ·) := by
  induction es with
  | nil =>
    intro s
    simp [timeTrace]
  | cons e tl ih =>
    intro s
    cases e with
    | update off =>
      rw [timeTrace]
      exact ih (updateOffset s off)
    | tick w =>
      rw [timeTrace]
      apply List.chain'_cons'.mpr
      refine ⟨?_, ih (nowMs s w).2⟩
      intro y hy
      have hmem : y ∈ timeTrace (nowMs s w).2 tl := by
        exact List.mem_of_mem_head? hy
      have := timeTrace_ge tl (nowMs s w).2 y hmem
      rwa [nowMs_last_eq] at this

/-- C6: every `nowMs()` call returns
`max(last_returned, wall_clock + offset_avg)` (with the plain wall clock
when the sum is non-finite or the offset not yet initialized), and along
any interleaving of `nowMs()` calls and offset updates the returned values
are monotone non-decreasing. -/
theorem C6_timekeeper_monotone :
    (∀ (s : TimeState) (wall : ℚ),
      (nowMs s wall).1 = max s.lastNow (rawNow s wall)) ∧
    ∀ es : List TimeEvent, (timeTrace initialTimeState es).Chain' (· ≤ ·) := by
  constructor
  · intro s wall
    unfold nowMs
    dsimp only
    rcases lt_or_ge (rawNow s wall) s.lastNow with hlt | hge
    · rw [if_pos hlt, max_eq_left (le_of_lt hlt)]
    · rw [if_neg (not_lt.mpr hge), max_eq_right hge]
  · intro es
    exact timeTrace_chain es initialTimeState

/-! ## GLB fetcher / parser (`fetchMaybeRange`, `fetchGltfJson`, ghost runner)

Byte buffers are lists of naturals; the HTTP server is an oracle mapping
requests to responses; `TextDecoder` + `JSON.parse` is an abstract partial
decoding function (`none` = invalid JSON).  Each fetch helper also returns
the list of requests it issued, in order. -/

inductive Req
  | rangedGet (firstByte lastByte : ℕ)
  | fullGet
deriving DecidableEq, Repr

structure Resp where
  status : ℕ
  buffer : List ℕ
deriving DecidableEq, Repr

/-- `DataView.getUint32(off, true)` (little endian). -/
def getUint32LE (b : List ℕ) (off : ℕ) : ℕ :=
  b.getD off 0 + 256 * b.getD (off + 1) 0 + 65536 * b.getD (off + 2) 0 +
    16777216 * b.getD (off + 3) 0

/-- `isGlb`: at least 4 bytes and the ASCII magic `glTF`. -/
def isGlb (b : List ℕ) : Bool :=
  decide (4 ≤ b.length) && decide (b.getD 0 0 = 0x67) &&
    decide (b.getD 1 0 = 0x6c) && decide (b.getD 2 0 = 0x54) &&
    decide (b.getD 3 0 = 0x46)

/-- `parseGlbJson`: header checks, then decode bytes `[20, 20+chunkLength)`. -/
def parseGlbJson {α : Type} (decodeJson : List ℕ → Option α) (b : List ℕ) :
    Except String α :=
  if b.length < 20 then .error ("glb_too_small")
  else
    let chunkLength := getUint32LE b 12
    let chunkType := getUint32LE b 16
    if chunkType ≠ 0x4e4f534a then .error ("glb_missing_json_chunk")
    else if 20 + chunkLength > b.length then
      .error ("glb_incomplete_json_chunk")
    else
      match decodeJson ((b.drop 20).take chunkLength) with
      | some v => .ok v
      | none => .error ("glb_invalid_json")

structure RangeResult where
  status : ℕ
  buffer : List ℕ
  ranged : Bool
deriving Repr

/-- `fetchMaybeRange`: one ranged GET for `bytes=0-(maxInitialBytes-1)`;
a non-206 status means the server ignored the range. -/
def fetchMaybeRange (server : Req → Resp) (maxInitialBytes : ℕ) :
    RangeResult × Req :=
  let req : Req := .rangedGet 0 (maxInitialBytes - 1)
  let res := server req
  if res.status ≠ 206 then
    ({ status := res.status, buffer := res.buffer, ranged := false }, req)
  else
    ({ status := res.status, buffer := res.buffer, ranged := true }, req)

/-- `fetchGltfJson`: result plus the ordered request trace. -/
def fetchGltfJson {α : Type} (decodeJson : List ℕ → Option α)
    (server : Req → Resp) : Except String α × List Req :=
  let fr := fetchMaybeRange server (256 * 1024)
  let first := fr.1
  let req1 := fr.2
  if first.buffer.length = 0 then (.error ("scene_empty"), [req1])
  else if isGlb first.buffer = false then
    let full := server .fullGet
    (match decodeJson full.buffer with
      | some v => .ok v
      | none => .error ("gltf_invalid_json"), [req1, .fullGet])
  else if first.buffer.length < 20 then
    let full := server .fullGet
    (parseGlbJson decodeJson full.buffer, [req1, .fullGet])
  else
    let chunkLength := getUint32LE first.buffer 12
    let needed := 20 + chunkLength
    if needed ≤ first.buffer.length then
      (parseGlbJson decodeJson first.buffer, [req1])
    else if first.ranged = false ∨ needed > 2 * 1024 * 1024 then
      let full := server .fullGet
      (parseGlbJson decodeJson full.buffer, [req1, .fullGet])
    else
      let req2 : Req := .rangedGet 0 (needed - 1)
      let second := server req2
      if second.status ≠ 206 then
        let full := server .fullGet
        (parseGlbJson decodeJson full.buffer, [req1, req2, .fullGet])
      else
        (parseGlbJson decodeJson second.buffer, [req1, req2])


/-- `20 + chunk_length` as computed from the first ranged response. -/
def glbNeeded (server : Req → Resp) : ℕ :=
  20 + getUint32LE (server (Req.rangedGet 0 (256 * 1024 - 1))).buffer 12

theorem fetchGltfJson_secondRange {α : Type} (decodeJson : List ℕ → Option α)
    (server : Req → Resp)
    (h206 : (server (Req.rangedGet 0 (256 * 1024 - 1))).status = 206)
    (hglb : isGlb (server (Req.rangedGet 0 (256 * 1024 - 1))).buffer = true)
    (h20 : 20 ≤ (server (Req.rangedGet 0 (256 * 1024 - 1))).buffer.length)
    (hbig : (server (Req.rangedGet 0 (256 * 1024 - 1))).buffer.length <
      glbNeeded server)
    (hcap : glbNeeded server ≤ 2 * 1024 * 1024) :
    fetchGltfJson decodeJson server =
      if (server (Req.rangedGet 0 (glbNeeded server - 1))).status ≠ 206 then
        (parseGlbJson decodeJson (server .fullGet).buffer,
          [Req.rangedGet 0 (256 * 1024 - 1),
            Req.rangedGet 0 (glbNeeded server - 1), .fullGet])
      else
        (parseGlbJson decodeJson
            (server (Req.rangedGet 0 (glbNeeded server - 1))).buffer,
          [Req.rangedGet 0 (256 * 1024 - 1),
            Req.rangedGet 0 (glbNeeded server - 1)]) := by
  rw [glbNeeded] at hbig hcap
  have hfmr : fetchMaybeRange server (256 * 1024) =
      ({ status := (server (Req.rangedGet 0 (256 * 1024 - 1))).status,
         buffer := (server (Req.rangedGet 0 (256 * 1024 - 1))).buffer,
         ranged := true }, Req.rangedGet 0 (256 * 1024 - 1)) := by
    unfold fetchMaybeRange
    dsimp only
    rw [if_neg]
    simp [h206]
  unfold fetchGltfJson
  rw [hfmr]
  dsimp only
  rw [if_neg (by omega)]
  rw [if_neg (by simp [hglb])]
  rw [if_neg (by omega)]
  rw [if_neg (by omega)]
  rw [if_neg (by push_neg; exact ⟨by simp, by omega⟩)]
  rw [glbNeeded]

/-- Concrete C5 scenario: a 20-byte GLB header announcing a 100-byte JSON
chunk (`needed = 120`), a 206 first response holding only the header, and
a 206 second response of 50 bytes (still shorter than 120). -/
def glbHeaderCX : List ℕ :=
  [103, 108, 84, 70, 2, 0, 0, 0, 0, 0, 0, 0, 100, 0, 0, 0, 74, 83, 79, 78]

def secondBufCX : List ℕ := glbHeaderCX ++ List.replicate 30 0

def serverCX : Req → Resp :=
  fun r =>
    if r = Req.rangedGet 0 (256 * 1024 - 1) then
      { status := 206, buffer := glbHeaderCX }
    else if r = Req.rangedGet 0 119 then
      { status := 206, buffer := secondBufCX }
    else { status := 200, buffer := [] }

def decodeNoneCX : List ℕ → Option Unit := fun _ => none

/-- C5 counterexample: when the second ranged response is 206 but still
shorter than `20 + chunk_length`, the code does NOT fall back to fetching
the full body as the claim states; it fails with
`glb_incomplete_json_chunk` and never issues a full GET. -/
theorem C5_counterexample :
    (fetchGltfJson decodeNoneCX serverCX).1
        = .error ("glb_incomplete_json_chunk") ∧
      (fetchGltfJson decodeNoneCX serverCX).2
        = [Req.rangedGet 0 262143, Req.rangedGet 0 119] ∧
      Req.fullGet ∉ (fetchGltfJson decodeNoneCX serverCX).2 :=
  ⟨rfl, rfl, by decide⟩

/-- C5 (amended): for a GLB whose JSON chunk does not fit into the first
ranged response, if that response was 206 and `20 + chunk_length ≤ 2 MiB`,
exactly one second ranged GET for bytes `[0, 20+chunk_length)` is issued
and the JSON chunk is parsed from its body; the full body is fetched only
when the second response is not 206 (a short 206 produces a
`glb_incomplete_json_chunk` error instead of a full-body fallback).  If
the first response was 200 (range ignored) its body is used as the full
file and no second request is issued. -/
theorem C5_glb_fetch_behaviour {α : Type} (decodeJson : List ℕ → Option α)
    (server : Req → Resp) :
    ((server (Req.rangedGet 0 (256 * 1024 - 1))).status = 206 →
      isGlb (server (Req.rangedGet 0 (256 * 1024 - 1))).buffer = true →
      20 ≤ (server (Req.rangedGet 0 (256 * 1024 - 1))).buffer.length →
      (server (Req.rangedGet 0 (256 * 1024 - 1))).buffer.length <
        glbNeeded server →
      glbNeeded server ≤ 2 * 1024 * 1024 →
      ((server (Req.rangedGet 0 (glbNeeded server - 1))).status = 206 →
        fetchGltfJson decodeJson server =
          (parseGlbJson decodeJson
              (server (Req.rangedGet 0 (glbNeeded server - 1))).buffer,
            [Req.rangedGet 0 (256 * 1024 - 1),
              Req.rangedGet 0 (glbNeeded server - 1)])) ∧
      ((server (Req.rangedGet 0 (glbNeeded server - 1))).status ≠ 206 →
        fetchGltfJson decodeJson server =
          (parseGlbJson decodeJson (server .fullGet).buffer,
            [Req.rangedGet 0 (256 * 1024 - 1),
              Req.rangedGet 0 (glbNeeded server - 1), .fullGet]))) ∧
    ((server (Req.rangedGet 0 (256 * 1024 - 1))).status = 200 →
      isGlb (server (Req.rangedGet 0 (256 * 1024 - 1))).buffer = true →
      20 ≤ (server (Req.rangedGet 0 (256 * 1024 - 1))).buffer.length →
      glbNeeded server ≤ (server (Req.rangedGet 0 (256 * 1024 - 1))).buffer.length →
      fetchGltfJson decodeJson server =
        (parseGlbJson decodeJson (server (Req.rangedGet 0 (256 * 1024 - 1))).buffer,
          [Req.rangedGet 0 (256 * 1024 - 1)])) := by
  constructor
  · intro h206 hglb h20 hbig hcap
    have heval := fetchGltfJson_secondRange decodeJson server h206 hglb h20 hbig hcap
    constructor
    · intro h2s
      rw [heval, if_neg (by simp [h2s])]
    · intro h2n
      rw [heval, if_pos h2n]
  · intro h200 hglb h20 hfit
    rw [glbNeeded] at hfit
    have hfmr : fetchMaybeRange server (256 * 1024) =
        ({ status := (server (Req.rangedGet 0 (256 * 1024 - 1))).status,
           buffer := (server (Req.rangedGet 0 (256 * 1024 - 1))).buffer,
           ranged := false }, Req.rangedGet 0 (256 * 1024 - 1)) := by
      unfold fetchMaybeRange
      dsimp only
      rw [if_pos (by simp [h200])]
    unfold fetchGltfJson
    rw [hfmr]
    dsimp only
    rw [if_neg (by omega)]
    rw [if_neg (by simp [hglb])]
    rw [if_neg (by omega)]
    rw [if_pos hfit]

/-- Witness for C5: the concrete scenario satisfies every hypothesis of the
first conjunct and the amended behaviour evaluates as stated. -/
theorem C5_glb_fetch_behaviour_witness :
    ((serverCX (Req.rangedGet 0 (256 * 1024 - 1))).status = 206 ∧
      isGlb (serverCX (Req.rangedGet 0 (256 * 1024 - 1))).buffer = true ∧
      20 ≤ (serverCX (Req.rangedGet 0 (256 * 1024 - 1))).buffer.length ∧
      (serverCX (Req.rangedGet 0 (256 * 1024 - 1))).buffer.length <
        glbNeeded serverCX ∧
      glbNeeded serverCX ≤ 2 * 1024 * 1024 ∧
      (serverCX (Req.rangedGet 0 (glbNeeded serverCX - 1))).status = 206) ∧
    fetchGltfJson decodeNoneCX serverCX =
      (parseGlbJson decodeNoneCX
          (serverCX (Req.rangedGet 0 (glbNeeded serverCX - 1))).buffer,
        [Req.rangedGet 0 (256 * 1024 - 1),
          Req.rangedGet 0 (glbNeeded serverCX - 1)]) :=
  ⟨⟨by decide, by decide, by decide, by decide, by decide, by decide⟩,
    ((C5_glb_fetch_behaviour decodeNoneCX serverCX).1 (by decide) (by decide)
      (by decide) (by decide) (by decide)).1 (by decide)⟩

/-! ## Ghost-runner geometry (gl-matrix subset, `segmentIntersectsUnitAabb`,
`isPathClearWithColliders`)

JavaScript numbers are modelled as reals (so `Math.hypot`, `Math.sqrt`,
trigonometry are exact); the definitions are `noncomputable` because real
comparison is classical.  Vectors are xyz records; matrices carry the 16
column-major gl-matrix entries. -/

noncomputable section

structure Vec3 where
  x : ℝ
  y : ℝ
  z : ℝ

structure Mat4 where
  m0 : ℝ
  m1 : ℝ
  m2 : ℝ
  m3 : ℝ
  m4 : ℝ
  m5 : ℝ
  m6 : ℝ
  m7 : ℝ
  m8 : ℝ
  m9 : ℝ
  m10 : ℝ
  m11 : ℝ
  m12 : ℝ
  m13 : ℝ
  m14 : ℝ
  m15 : ℝ

/-- `vec3.transformMat4` from gl-matrix: affine transform with the
`w = w || 1` guard. -/
def transformMat4 (v : Vec3) (m : Mat4) : Vec3 :=
  let w0 := m.m3 * v.x + m.m7 * v.y + m.m11 * v.z + m.m15
  let w := if w0 = 0 then 1 else w0
  { x := (m.m0 * v.x + m.m4 * v.y + m.m8 * v.z + m.m12) / w,
    y := (m.m1 * v.x + m.m5 * v.y + m.m9 * v.z + m.m13) / w,
    z := (m.m2 * v.x + m.m6 * v.y + m.m10 * v.z + m.m14) / w }

/-- `clamp(value, min, max) = Math.max(min, Math.min(max, value))`. -/
def clampR (value lo hi : ℝ) : ℝ := max lo (min hi value)

/-- A box collider as extracted from the scene: the unit cube transformed
by `world`, with `inv` its (precomputed) inverse. -/
structure BoxCollider where
  name : String
  world : Mat4
  inv : Mat4

/-- One axis of the slab test in `segmentIntersectsUnitAabb`: given the
point/direction components and the running `[tmin, tmax]` interval,
either rejects or tightens the interval. -/
def slabAxis (p dir tmin tmax : ℝ) : Option (ℝ × ℝ) :=
  if |dir| < 1e-8 then
    if p < -0.5 ∨ p > 0.5 then none else some (tmin, tmax)
  else
    let invD := 1 / dir
    let t1 := (-0.5 - p) * invD
    let t2 := (0.5 - p) * invD
    let lo := if t1 > t2 then t2 else t1
    let hi := if t1 > t2 then t1 else t2
    let tmin' := max tmin lo
    let tmax' := min tmax hi
    if tmax' < tmin' then none else some (tmin', tmax')

/-- `segmentIntersectsUnitAabb(p0, p1)`: entry/exit parameters of the
segment against the AABB `[-0.5, 0.5]^3`, or `none`. -/
def segmentIntersectsUnitAabb (p0 p1 : Vec3) : Option (ℝ × ℝ) :=
  match slabAxis p0.x (p1.x - p0.x) 0 1 with
  | none => none
  | some (ta, tb) =>
    match slabAxis p0.y (p1.y - p0.y) ta tb with
    | none => none
    | some (tc, td) =>
      match slabAxis p0.z (p1.z - p0.z) tc td with
      | none => none
      | some (te, tf) => some (te, tf)

/-- `isPathClearWithColliders(colliders, from, to, endpointEpsilonM)`:
both endpoints are lifted by +0.2 m in Y; `Math.hypot` is the Euclidean
length; a hit blocks only when its entry arc-length is strictly inside
`(eps, len - eps)`. -/
def isPathClearWithColliders (colliders : List BoxCollider) (fromP toP : Vec3)
    (endpointEpsilonM : ℝ := 0.1) : Bool :=
  if colliders.length = 0 then true
  else
    let fromV : Vec3 := { x := fromP.x, y := fromP.y + 0.2, z := fromP.z }
    let toV : Vec3 := { x := toP.x, y := toP.y + 0.2, z := toP.z }
    let segLen := Real.sqrt ((toV.x - fromV.x) ^ 2 + (toV.y - fromV.y) ^ 2 +
      (toV.z - fromV.z) ^ 2)
    if segLen ≤ endpointEpsilonM * 2 then true
    else
      colliders.all fun c =>
        match segmentIntersectsUnitAabb (transformMat4 fromV c.inv)
            (transformMat4 toV c.inv) with
        | none => true
        | some (tEnter, _tExit) =>
          let tHit := clampR (max tEnter 0) 0 1
          let d := tHit * segLen
          decide (¬(d > endpointEpsilonM ∧ d < segLen - endpointEpsilonM))

/-- `normalizeAngleDeg(deg) = ((deg % 360) + 360) % 360`; for real inputs
the double-remainder formula is the canonical representative in
`[0, 360)`, i.e. `deg - 360⌊deg/360⌋`. -/
def normalizeAngleDeg (deg : ℝ) : ℝ := deg - 360 * (⌊deg / 360⌋ : ℤ)

/-- `Math.atan2(y, x)` (returns 0 at the origin, as in JS). -/
def jsAtan2 (y x : ℝ) : ℝ :=
  if x > 0 then Real.arctan (y / x)
  else if x < 0 ∧ y ≥ 0 then Real.arctan (y / x) + Real.pi
  else if x < 0 ∧ y < 0 then Real.arctan (y / x) - Real.pi
  else if x = 0 ∧ y > 0 then Real.pi / 2
  else if x = 0 ∧ y < 0 then -(Real.pi / 2)
  else 0

end

/-! ## Ghost-runner bot simulator (part_002 main block)

`Math.random()` and `timekeeper.nowMs()` are oracle streams indexed by
per-stream counters carried in the state; the channel is modelled by an
append-only output log.  `template`, `persistent` and `parent` of the
entity payloads are source constants and therefore omitted. -/

noncomputable section

structure Waypoint where
  name : String
  position : Vec3

structure WaypointData where
  spawnPoints : List Waypoint
  patrolPoints : List Waypoint
  allWaypoints : List Waypoint
  colliders : List BoxCollider

structure PathSeg where
  startPos : Vec3
  endPos : Vec3
  t0 : ℝ
  dur : ℝ
  yaw0 : ℝ
  yaw1 : ℝ

structure Destination where
  name : String
  position : Vec3

structure BotRecord where
  id : String
  networkId : String
  lastOwnerTime : ℝ
  position : Vec3
  homePosition : Vec3
  yawDeg : ℝ
  state : String
  stateEndsAt : ℝ
  mobility : String
  destination : Option Destination
  reservedTargetName : Option String
  path : Option PathSeg

structure PathComp where
  sx : ℝ
  sy : ℝ
  sz : ℝ
  ex : ℝ
  ey : ℝ
  ez : ℝ
  t0 : ℝ
  dur : ℝ
  yaw0 : ℝ
  yaw1 : ℝ

structure InfoComp where
  botId : String
  avatarId : String
  displayName : String
  isBot : Bool

/-- `components`: slot 0 always a path; slot 1 (info) only on creates. -/
inductive Components
  | pair (path : PathComp) (info : InfoComp)
  | single (path : PathComp)

structure EntityData where
  networkId : String
  owner : String
  creator : String
  lastOwnerTime : ℝ
  components : Components
  isFirstSync : Option Bool

inductive Payload
  | updateEntity (d : EntityData)
  | removeEntity (networkId : String)

inductive ChanMsg
  | naf (p : Payload)
  | nafr (p : Payload)

/-- Environment of the runner process: oracles for `Math.random` and
`timekeeper.nowMs()`, the raycast mode and path tuning env vars, the
session/hub ids and the avatar catalog state. -/
structure Env where
  rng : ℕ → ℝ
  tk : ℕ → ℝ
  raycastMode : String
  pathStartDelayMs : ℝ
  minWalkDurationMs : ℝ
  hubSid : String
  sessionId : String
  avatarRefs : List String
  fullbodyRefs : List String
  avatarRotationOffset : ℕ

/-- The mutable state of the simulator: config, scene data, the `bots`
map, the reservation map, the outbound message log and the oracle
counters. -/
structure Sim where
  botsConfig : BotsCfg
  waypointData : WaypointData
  bots : List (String × BotRecord)
  reservedTargets : List (String × String)
  outputs : List ChanMsg
  rngK : ℕ
  tkK : ℕ

def sendNaf (s : Sim) (p : Payload) : Sim :=
  { s with outputs := s.outputs ++ [ChanMsg.naf p] }

def sendNafr (s : Sim) (p : Payload) : Sim :=
  { s with outputs := s.outputs ++ [ChanMsg.nafr p] }

structure Behavior where
  speedMps : ℝ
  idleMinMs : ℝ
  idleMaxMs : ℝ

/-- `MOBILITY_BEHAVIOR[mobility] || MOBILITY_BEHAVIOR.medium`. -/
def behaviorFor (m : String) : Behavior :=
  if m = "low" then { speedMps := 0.45, idleMinMs := 8000, idleMaxMs := 22000 }
  else if m = "medium" then
    { speedMps := 0.75, idleMinMs := 4500, idleMaxMs := 14000 }
  else if m = "high" then
    { speedMps := 1.05, idleMinMs := 2500, idleMaxMs := 8000 }
  else { speedMps := 0.75, idleMinMs := 4500, idleMaxMs := 14000 }

/-- `randomIdleDurationMs` with its single `Math.random()` draw passed in. -/
def randomIdleDurationMs (m : String) (rand : ℝ) : ℝ :=
  let behavior := behaviorFor m
  let range := behavior.idleMaxMs - behavior.idleMinMs
  behavior.idleMinMs + ((⌊rand * max range 1⌋ : ℤ) : ℝ)

/-- `initialIdleDurationMs` with its single `Math.random()` draw passed in. -/
def initialIdleDurationMs (m : String) (rand : ℝ) : ℝ :=
  if m = "low" then 2000 + ((⌊rand * 3000⌋ : ℤ) : ℝ)
  else if m = "high" then 800 + ((⌊rand * 1000⌋ : ℤ) : ℝ)
  else 1200 + ((⌊rand * 1300⌋ : ℤ) : ℝ)

/-- `separateNearbyPosition(basePos, botIndex, usedPositions)`. -/
def separateNearbyPosition (basePos : Vec3) (botIndex : ℕ)
    (usedPositions : List Vec3) : Vec3 :=
  let pos := basePos
  if botIndex = 0 then pos
  else
    let conflicts := (usedPositions.filter fun other =>
      decide ((other.x - pos.x) * (other.x - pos.x) +
        (other.z - pos.z) * (other.z - pos.z) < 0.36)).length
    if conflicts = 0 then pos
    else
      let angle := (botIndex : ℝ) * (Real.pi * 2 / 6)
      let spreadRadius := 0.8 + min (conflicts : ℝ) 2 * 0.2
      { x := pos.x + Real.cos angle * spreadRadius, y := pos.y,
        z := pos.z + Real.sin angle * spreadRadius }

/-! Data-level models of the JavaScript string helpers (Lean's own
`String.drop`/`toNat?`/`trim`/`toLower` rely on opaque UTF-8 primitives
that proofs cannot evaluate). -/

def jsDrop (s : String) (n : ℕ) : String := ⟨s.data.drop n⟩

/-- `Number(s)` for a digit string (`none` when not all digits = NaN). -/
def jsToNat? (s : String) : Option ℕ :=
  if s.data = [] then none
  else if s.data.all Char.isDigit then
    some (s.data.foldl (fun acc c => acc * 10 + (c.toNat - 48)) 0)
  else none

/-- `String.prototype.trim()`. -/
def jsTrim (s : String) : String :=
  ⟨((s.data.dropWhile Char.isWhitespace).reverse.dropWhile
    Char.isWhitespace).reverse⟩

/-- `String.prototype.toLowerCase()`. -/
def jsLower (s : String) : String := ⟨s.data.map Char.toLower⟩

/-- `botIndexFromId`: `max(Number(id.replace("bot-","")) - 1, 0)`; for the
generated `bot-<n>` ids this is `n - 1` (and 0 when unparsable). -/
def botIndexFromId (botId : String) : ℕ :=
  match jsToNat? (jsDrop botId 4) with
  | some n => n - 1
  | none => 0

/-- `pickAvatarId(botId, avatarRefs, fullbodyRefs, rotationOffset)`. -/
def pickAvatarId (env : Env) (botId : String) : String :=
  let refs := if env.fullbodyRefs.length ≠ 0 then env.fullbodyRefs
    else env.avatarRefs
  if refs.length = 0 then ""
  else refs.getD ((botIndexFromId botId + env.avatarRotationOffset) %
    refs.length) ""

def buildNetworkId (hubSid botId : String) : String :=
  "room-bot-" ++ hubSid ++ "-" ++ botId

def buildBotPathFreeze (pos : Vec3) (yawDeg nowMs : ℝ) : PathComp :=
  { sx := pos.x, sy := pos.y, sz := pos.z, ex := pos.x, ey := pos.y,
    ez := pos.z, t0 := nowMs, dur := 0, yaw0 := yawDeg, yaw1 := yawDeg }

def buildBotPathSegment (path : PathSeg) : PathComp :=
  { sx := path.startPos.x, sy := path.startPos.y, sz := path.startPos.z,
    ex := path.endPos.x, ey := path.endPos.y, ez := path.endPos.z,
    t0 := path.t0, dur := path.dur, yaw0 := path.yaw0, yaw1 := path.yaw1 }

def createEntityPayload (networkId owner creator : String)
    (lastOwnerTime : ℝ) (components : Components) (isFirstSync : Bool) :
    Payload :=
  .updateEntity
    { networkId := networkId
      owner := owner
      creator := creator
      lastOwnerTime := lastOwnerTime
      components := components
      isFirstSync := some isFirstSync }

def updateEntityPayload (networkId owner creator : String)
    (lastOwnerTime : ℝ) (components : Components) : Payload :=
  .updateEntity
    { networkId := networkId
      owner := owner
      creator := creator
      lastOwnerTime := lastOwnerTime
      components := components
      isFirstSync := none }

def removeEntityPayload (networkId : String) : Payload :=
  .removeEntity networkId

/-- `updateRecordPositionFromPath(record, nowMs)`. -/
def updateRecordPositionFromPath (r : BotRecord) (nowMs : ℝ) : BotRecord :=
  match r.path with
  | none => r
  | some path =>
    let dur := max 0 path.dur
    let t0 := path.t0
    let alpha := if dur > 0 then
        clampR (if nowMs ≤ t0 then 0 else (nowMs - t0) / dur) 0 1
      else 1
    { r with position :=
        { x := path.startPos.x + (path.endPos.x - path.startPos.x) * alpha,
          y := path.startPos.y + (path.endPos.y - path.startPos.y) * alpha,
          z := path.startPos.z + (path.endPos.z - path.startPos.z) * alpha } }

/-- `releaseReservation(record)`: delete the index entry only when the
record's reserved name is truthy and the entry is owned by this record;
always null the record's reserved name. -/
def releaseReservation (reserved : List (String × String)) (r : BotRecord) :
    List (String × String) × BotRecord :=
  let reserved' :=
    match r.reservedTargetName with
    | some name =>
      if name ≠ "" ∧ aGet reserved name = some r.id then aDel reserved name
      else reserved
    | none => reserved
  (reserved', { r with reservedTargetName := none })

/-- `reserveTarget(record, targetName)`: no-op for a falsy name; otherwise
release the old reservation, then unconditionally claim the new name. -/
def reserveTarget (reserved : List (String × String)) (r : BotRecord)
    (targetName : String) : List (String × String) × BotRecord :=
  if targetName = "" then (reserved, r)
  else
    let rel := releaseReservation reserved r
    let r2 := { rel.2 with reservedTargetName := some targetName }
    (aSet rel.1 targetName r2.id, r2)

/-- `Math.floor` of a (non-negative) real used as an array index. -/
def jsFloorIdx (x : ℝ) : ℕ := (⌊x⌋ : ℤ).toNat

def listSwap {α : Type} (l : List α) (i j : ℕ) : List α :=
  match l.get? i, l.get? j with
  | some vi, some vj => (l.set i vj).set j vi
  | _, _ => l

/-- The Fisher-Yates loop of `pickPatrolPoint`
(`for (i = len-1; i > 0; i--) swap(i, floor(random()*(i+1)))`), indexed by
the loop variable counting down; `k` is the `Math.random` counter. -/
def shuffleGo (env : Env) : List Waypoint → ℕ → ℕ → List Waypoint × ℕ
  | l, k, 0 => (l, k)
  | l, k, i + 1 =>
    let j := jsFloorIdx (env.rng k * ((i + 2 : ℕ) : ℝ))
    shuffleGo env (listSwap l (i + 1) j) (k + 1) i

/-- `pickPatrolPoint(record, excludeName)`: filter, relax, shuffle, try up
to 8 line-of-sight candidates, else a uniform random fallback.  Returns
the picked point (`none` = JS `null`/`undefined`) and the advanced
`Math.random` counter. -/
def pickPatrolPoint (env : Env) (reserved : List (String × String))
    (wd : WaypointData) (r : BotRecord) (excludeName : Option String)
    (k : ℕ) : Option Waypoint × ℕ :=
  let points := wd.patrolPoints
  if points.length = 0 then (none, k)
  else
    let botId := r.id
    let candidates := points.filter fun p =>
      decide (p.name ≠ "") && decide (some p.name ≠ excludeName) &&
        (match aGet reserved p.name with
          | some owner => decide (owner = "" ∨ owner = botId)
          | none => true) &&
        decide ((p.position.x - r.position.x) * (p.position.x - r.position.x) +
          (p.position.z - r.position.z) * (p.position.z - r.position.z) > 0.04)
    let source1 := if candidates.length ≠ 0 then candidates
      else points.filter fun p => decide (some p.name ≠ excludeName)
    if source1.length = 0 then (none, k)
    else
      let sh := shuffleGo env source1 k (source1.length - 1)
      let shuffled := sh.1
      let k1 := sh.2
      let maxAttempts := min 8 shuffled.length
      match (shuffled.take maxAttempts).find? (fun p =>
          if env.raycastMode = "spoke_colliders" then
            isPathClearWithColliders wd.colliders r.position p.position
          else true) with
      | some p => (some p, k1)
      | none =>
        (source1.get? (jsFloorIdx (env.rng k1 * (source1.length : ℝ))), k1 + 1)

/-- `startWalking(record, desiredWaypointName, nowMs)`, operating on the
bot stored under `botId` and writing the mutated record back. -/
def startWalking (env : Env) (s : Sim) (botId : String)
    (desiredWaypointName : Option String) (nowMs : ℝ) : Sim :=
  match aGet s.bots botId with
  | none => s
  | some r0 =>
    let r1 := updateRecordPositionFromPath r0 nowMs
    let target0 : Option Waypoint :=
      match desiredWaypointName with
      | some dn =>
        if dn = "" then none
        else
          let desired := jsLower (jsTrim dn)
          match s.waypointData.allWaypoints.find?
              (fun p => jsLower (jsTrim p.name) = desired) with
          | some t =>
            if env.raycastMode = "spoke_colliders" then
              if isPathClearWithColliders s.waypointData.colliders r1.position
                  t.position then some t
              else none
            else some t
          | none => none
      | none => none
    let pick : Option Waypoint × ℕ :=
      match target0 with
      | some t => (some t, s.rngK)
      | none =>
        pickPatrolPoint env s.reservedTargets s.waypointData r1
          (r1.destination.map (fun d => d.name)) s.rngK
    let wander : Waypoint × ℕ :=
      match pick.1 with
      | some t => (t, pick.2)
      | none =>
        let angle := env.rng pick.2 * Real.pi * 2
        let radius := 0.8 + env.rng (pick.2 + 1) * 1.2
        ({ name := "__wander__",
           position :=
             { x := r1.homePosition.x + Real.cos angle * radius,
               y := r1.position.y,
               z := r1.homePosition.z + Real.sin angle * radius } },
          pick.2 + 2)
    let target := wander.1
    let k2 := wander.2
    let res :=
      if target.name ≠ "" ∧ target.name ≠ "__wander__" then
        reserveTarget s.reservedTargets r1 target.name
      else releaseReservation s.reservedTargets r1
    let reserved3 := res.1
    let r3 := res.2
    let behavior := behaviorFor r3.mobility
    let startPos := r3.position
    let destination := separateNearbyPosition target.position
      (botIndexFromId r3.id) []
    let endPos := destination
    let dx := endPos.x - startPos.x
    let dz := endPos.z - startPos.z
    let distance := Real.sqrt (dx * dx + dz * dz)
    if distance ≤ 0.08 then
      let r4 := { r3 with
        state := "idle"
        destination := none
        path := none
        stateEndsAt := nowMs + 800 }
      { s with
        bots := aSet s.bots botId r4
        reservedTargets := reserved3
        rngK := k2 }
    else
      let speedMps := max 0.05 behavior.speedMps
      let durMs := max env.minWalkDurationMs (distance / speedMps * 1000)
      let t0 := nowMs + env.pathStartDelayMs
      let desiredYaw := normalizeAngleDeg (jsAtan2 dx dz * 180 / Real.pi)
      let yaw0 := normalizeAngleDeg r3.yawDeg
      let yaw1 := desiredYaw
      let path : PathSeg := { startPos := startPos
                              endPos := endPos
                              t0 := t0
                              dur := durMs
                              yaw0 := yaw0
                              yaw1 := yaw1 }
      let r4 := { r3 with
        state := "walk"
        destination := some { name := target.name, position := endPos }
        path := some path
        stateEndsAt := t0 + durMs
        yawDeg := yaw1 }
      let s4 : Sim := { s with
        bots := aSet s.bots botId r4
        reservedTargets := reserved3
        rngK := k2 }
      sendNafr s4 (updateEntityPayload r4.networkId env.sessionId
        env.sessionId r4.lastOwnerTime (.single (buildBotPathSegment path)))

/-- `setIdle(record, nowMs)`. -/
def setIdle (env : Env) (s : Sim) (botId : String) (nowMs : ℝ) : Sim :=
  match aGet s.bots botId with
  | none => s
  | some r0 =>
    let r1 := updateRecordPositionFromPath r0 nowMs
    let r2 := { r1 with state := "idle", destination := (none : Option Destination) }
    let rel := releaseReservation s.reservedTargets r2
    let r4 := { rel.2 with
      path := (none : Option PathSeg)
      stateEndsAt := nowMs + randomIdleDurationMs rel.2.mobility (env.rng s.rngK) }
    let s4 : Sim := { s with
      bots := aSet s.bots botId r4
      reservedTargets := rel.1
      rngK := s.rngK + 1 }
    sendNafr s4 (updateEntityPayload r4.networkId env.sessionId env.sessionId
      r4.lastOwnerTime (.single (buildBotPathFreeze r4.position r4.yawDeg nowMs)))

/-- One iteration of the removal loop of `reconcileBots`
(`for i = desired+1..10`): drop `bot-<i>` (if present), deleting the index
entry stored under its reserved name and publishing a Remove. -/
def reconcileRemove (s : Sim) (i : ℕ) : Sim :=
  let botId := "bot-" ++ toString i
  match aGet s.bots botId with
  | none => s
  | some record =>
    let reserved' :=
      match record.reservedTargetName with
      | some n => aDel s.reservedTargets n
      | none => s.reservedTargets
    { s with
      reservedTargets := reserved'
      outputs := s.outputs ++ [ChanMsg.naf (removeEntityPayload record.networkId)]
      bots := aDel s.bots botId }

/-- One iteration of the creation loop of `reconcileBots`
(`for i = 1..desired`), threading the `usedPositions` array. -/
def reconcileAddOne (env : Env) (nowMs : ℝ) (acc : Sim × List Vec3) (i : ℕ) :
    Sim × List Vec3 :=
  let s := acc.1
  let used := acc.2
  let botId := "bot-" ++ toString i
  match aGet s.bots botId with
  | some _ => (s, used)
  | none =>
    let index := botIndexFromId botId
    let spawnPoints := if s.waypointData.spawnPoints.length ≠ 0 then
        s.waypointData.spawnPoints
      else s.waypointData.patrolPoints
    let basePos :=
      match spawnPoints.get? (index % spawnPoints.length) with
      | some spawn => spawn.position
      | none => { x := 0, y := 0, z := 0 }
    let pos := separateNearbyPosition basePos index used
    let used' := used ++ [pos]
    let avatarId := pickAvatarId env botId
    let yaw := env.rng s.rngK * 360
    let lastOwnerTime := env.tk s.tkK
    let networkId := buildNetworkId env.hubSid botId
    let path := buildBotPathFreeze pos (normalizeAngleDeg yaw) nowMs
    let info : InfoComp := { botId := botId
                             avatarId := avatarId
                             displayName := botId
                             isBot := true }
    let s1 := sendNaf s (createEntityPayload networkId env.sessionId
      env.sessionId lastOwnerTime (.pair path info) true)
    let record : BotRecord := {
      id := botId
      networkId := networkId
      lastOwnerTime := lastOwnerTime
      position := pos
      homePosition := pos
      yawDeg := normalizeAngleDeg yaw
      state := "idle"
      stateEndsAt := nowMs + initialIdleDurationMs s.botsConfig.mobility
        (env.rng (s.rngK + 1))
      mobility := s.botsConfig.mobility
      destination := none
      reservedTargetName := none
      path := none }
    let s2 : Sim := { s1 with
      bots := aSet s1.bots botId record
      rngK := s.rngK + 2
      tkK := s.tkK + 1 }
    (s2, used')

/-- `reconcileBots(nowMs)`. -/
def reconcileBots (env : Env) (s : Sim) (nowMs : ℝ) : Sim :=
  if s.botsConfig.enabled = false ∨ s.botsConfig.count = 0 then
    if s.bots.length ≠ 0 then
      { s with
        outputs := s.outputs ++ s.bots.map
          (fun kv => ChanMsg.naf (removeEntityPayload kv.2.networkId)),
        bots := [], reservedTargets := [] }
    else s
  else
    let desired := min s.botsConfig.count 10
    let sR := (List.range' (desired + 1) (10 - desired)).foldl reconcileRemove s
    let used0 := sR.bots.map (fun kv => kv.2.position)
    let sA := ((List.range' 1 desired).foldl (reconcileAddOne env nowMs)
      (sR, used0)).1
    { sA with
      bots := sA.bots.map
        (fun kv => (kv.1, { kv.2 with mobility := sA.botsConfig.mobility })) }

/-- The `bot_command` message handler: for `{bot_id, type:"go_to_waypoint",
waypoint}` with a known bot and truthy waypoint, start walking towards the
commanded waypoint at `timekeeper.nowMs()`. -/
def handleBotCommand (env : Env) (s : Sim) (botId : String) (ctype : String)
    (waypoint : Option String) : Sim :=
  if botId = "" then s
  else
    match aGet s.bots botId with
    | none => s
    | some _ =>
      match waypoint with
      | some w =>
        if ctype = "go_to_waypoint" ∧ w ≠ "" then
          let nowv := env.tk s.tkK
          startWalking env { s with tkK := s.tkK + 1 } botId (some w) nowv
        else s
      | none => s

end

/-! ## `normalizeBotsConfig` (ghost runner)

A small model of the JavaScript values the config fields can hold: enough
to express truthiness, `Number(...)` coercion (`none` = NaN, `infinite` =
±∞) and strict string equality.  A string carries its `Number(s)` value
(`none` when that would be NaN or ±∞). -/

noncomputable section

inductive JSVal
  | undef
  | jsNull
  | boolean (b : Bool)
  | number (v : Option ℝ)
  | infinite (pos : Bool)
  | jsString (s : String) (numVal : Option ℝ)

/-- JavaScript truthiness. -/
def JSVal.truthy : JSVal → Bool
  | .undef => false
  | .jsNull => false
  | .boolean b => b
  | .number v =>
    match v with
    | some x => decide (x ≠ 0)
    | none => false
  | .infinite _ => true
  | .jsString s _ => decide (s ≠ "")

/-- `Number(v)` restricted to finiteness: `some x` when the coercion is a
finite number, `none` when it is NaN or ±∞. -/
def JSVal.toFiniteNumber : JSVal → Option ℝ
  | .undef => none
  | .jsNull => some 0
  | .boolean b => some (if b then 1 else 0)
  | .number v => v
  | .infinite _ => none
  | .jsString _ nv => nv

structure BotsFields where
  enabled : JSVal
  count : JSVal
  mobility : JSVal
  chat_enabled : JSVal

/-- The runner's `bots` config input: either a non-object value (including
`null`) or an object with the four fields (absent fields = `undef`). -/
inductive BotsInput
  | prim (v : JSVal)
  | obj (fields : BotsFields)

/-- `const source = bots && typeof bots === "object" ? bots : {}`. -/
def botsSource : BotsInput → BotsFields
  | .obj f => f
  | .prim _ => { enabled := .undef
                 count := .undef
                 mobility := .undef
                 chat_enabled := .undef }

structure NormBotsConfig where
  enabled : Bool
  count : ℝ
  mobility : String
  chat_enabled : Bool

/-- `normalizeBotsConfig(bots)` of the ghost runner (clamp to `[0, 10]`). -/
def normalizeBotsConfig (bots : BotsInput) : NormBotsConfig :=
  let source := botsSource bots
  let rawCount := (if source.count.truthy then source.count
    else JSVal.number (some 0)).toFiniteNumber
  let mobility :=
    match source.mobility with
    | .jsString s _ => if s = "low" ∨ s = "high" then s else "medium"
    | _ => "medium"
  { enabled := source.enabled.truthy
    count :=
      match rawCount with
      | some x => clampR ((⌊x⌋ : ℤ) : ℝ) 0 10
      | none => 0
    mobility := mobility
    chat_enabled := source.chat_enabled.truthy }

end

/-! ### Association-list lemmas -/

theorem aGet_aSet_self {α : Type} (m : List (String × α)) (k : String)
    (v : α) : aGet (aSet m k v) k = some v := by
  induction m with
  | nil => simp [aSet, aGet]
  | cons kv rest ih =>
    obtain ⟨k', v'⟩ := kv
    by_cases h : k' = k
    · simp [aSet, h, aGet]
    · simp [aSet, h, aGet, ih]

theorem aGet_aSet_ne {α : Type} (m : List (String × α)) (k n : String)
    (v : α) (h : n ≠ k) : aGet (aSet m k v) n = aGet m n := by
  induction m with
  | nil => simp [aSet, aGet, Ne.symm h]
  | cons kv rest ih =>
    obtain ⟨k', v'⟩ := kv
    by_cases hk : k' = k
    · subst hk
      have hset : aSet ((k', v') :: rest) k' v = (k', v) :: rest := by
        simp [aSet]
      rw [hset]
      simp [aGet, Ne.symm h]
    · by_cases hn : k' = n
      · subst hn
        simp [aSet, hk, aGet]
      · simp [aSet, hk, aGet, hn, ih]

theorem aGet_aDel_ne {α : Type} (m : List (String × α)) (k n : String)
    (h : n ≠ k) : aGet (aDel m k) n = aGet m n := by
  induction m with
  | nil => simp [aDel]
  | cons kv rest ih =>
    obtain ⟨k', v'⟩ := kv
    by_cases hk : k' = k
    · subst hk
      have hdel : aDel ((k', v') :: rest) k' = rest := by
        simp [aDel]
      rw [hdel]
      simp [aGet, Ne.symm h]
    · by_cases hn : k' = n
      · subst hn
        simp [aDel, hk, aGet]
      · simp [aDel, hk, aGet, hn, ih]

theorem mem_aKeys_iff {α : Type} (m : List (String × α)) (k : String) :
    k ∈ aKeys m ↔ (aGet m k).isSome := by
  induction m with
  | nil => simp [aKeys, aGet]
  | cons kv rest ih =>
    obtain ⟨k', v'⟩ := kv
    by_cases h : k' = k
    · subst h
      simp [aKeys, aGet]
    · have hg : aGet ((k', v') :: rest) k = aGet rest k := by
        simp [aGet, h]
      rw [hg, ← ih]
      simp only [aKeys, List.map_cons, List.mem_cons]
      constructor
      · rintro (h1 | hm)
        · exact absurd h1.symm h
        · exact hm
      · intro hm
        exact Or.inr hm

theorem aGet_aDel_self {α : Type} (m : List (String × α)) (k : String)
    (h : (aKeys m).Nodup) : aGet (aDel m k) k = none := by
  induction m with
  | nil => simp [aDel, aGet]
  | cons kv rest ih =>
    obtain ⟨k', v'⟩ := kv
    simp only [aKeys, List.map_cons, List.nodup_cons] at h
    by_cases hk : k' = k
    · subst hk
      have hdel : aDel ((k', v') :: rest) k' = rest := by
        simp [aDel]
      rw [hdel]
      rcases ho : aGet rest k' with _ | v
      · rfl
      · exfalso
        apply h.1
        show k' ∈ aKeys rest
        rw [mem_aKeys_iff, ho]
        rfl
    · simp only [aDel, hk, if_false, aGet]
      exact ih h.2

theorem aKeys_aDel_subset {α : Type} (m : List (String × α)) (k : String) :
    aKeys (aDel m k) ⊆ aKeys m := by
  induction m with
  | nil => simp [aDel]
  | cons kv rest ih =>
    obtain ⟨k', v'⟩ := kv
    by_cases hk : k' = k
    · simp only [aDel, hk, if_pos rfl, aKeys, List.map_cons]
      exact List.subset_cons_self _ _
    · simp only [aDel, hk, if_false, aKeys, List.map_cons]
      exact List.cons_subset_cons _ ih

theorem aKeys_aDel_nodup {α : Type} (m : List (String × α)) (k : String)
    (h : (aKeys m).Nodup) : (aKeys (aDel m k)).Nodup := by
  induction m with
  | nil => simp [aDel, aKeys]
  | cons kv rest ih =>
    obtain ⟨k', v'⟩ := kv
    simp only [aKeys, List.map_cons, List.nodup_cons] at h
    by_cases hk : k' = k
    · simpa [aDel, hk, aKeys] using h.2
    · simp only [aDel, hk, if_false, aKeys, List.map_cons, List.nodup_cons]
      refine ⟨?_, ih h.2⟩
      intro hm
      exact h.1 (aKeys_aDel_subset rest k hm)

theorem mem_aKeys_aDel {α : Type} (m : List (String × α)) (k x : String)
    (h : (aKeys m).Nodup) : x ∈ aKeys (aDel m k) ↔ x ∈ aKeys m ∧ x ≠ k := by
  by_cases hxk : x = k
  · subst hxk
    rw [mem_aKeys_iff, aGet_aDel_self m x h]
    simp
  · rw [mem_aKeys_iff, aGet_aDel_ne m k x hxk, ← mem_aKeys_iff]
    simp [hxk]

theorem mem_aKeys_aSet {α : Type} (m : List (String × α)) (k x : String)
    (v : α) : x ∈ aKeys (aSet m k v) ↔ x ∈ aKeys m ∨ x = k := by
  by_cases hxk : x = k
  · subst hxk
    rw [mem_aKeys_iff, aGet_aSet_self]
    simp
  · rw [mem_aKeys_iff, aGet_aSet_ne m k x v hxk, ← mem_aKeys_iff]
    simp [hxk]

theorem aKeys_aSet_nodup {α : Type} (m : List (String × α)) (k : String)
    (v : α) (h : (aKeys m).Nodup) : (aKeys (aSet m k v)).Nodup := by
  induction m with
  | nil => simp [aSet, aKeys]
  | cons kv rest ih =>
    obtain ⟨k', v'⟩ := kv
    simp only [aKeys, List.map_cons, List.nodup_cons] at h
    by_cases hk : k' = k
    · subst hk
      have hset : aSet ((k', v') :: rest) k' v = (k', v) :: rest := by
        simp [aSet]
      rw [hset]
      simpa [aKeys] using h
    · simp only [aSet, hk, if_false, aKeys, List.map_cons, List.nodup_cons]
      refine ⟨?_, ih h.2⟩
      intro hm
      rcases (mem_aKeys_aSet rest k k' v).mp hm with hm | hm
      · exact h.1 hm
      · exact hk hm

/-! ### C8: releaseReservation is owner-scoped -/

/-- C8: `releaseReservation(record)` nulls the record's
`reservedTargetName`; it deletes the index entry stored under that name
only when the entry currently maps to the record's own id; entries under
other names, and an entry under the same name owned by another bot, are
left unchanged. -/
theorem C8_releaseReservation_owner_scoped
    (reserved : List (String × String)) (r : BotRecord) :
    (releaseReservation reserved r).2.reservedTargetName = none ∧
    (∀ n : String, some n ≠ r.reservedTargetName →
      aGet (releaseReservation reserved r).1 n = aGet reserved n) ∧
    (∀ n : String, r.reservedTargetName = some n → n ≠ "" →
      aGet reserved n ≠ some r.id →
      (releaseReservation reserved r).1 = reserved) ∧
    (∀ n : String, r.reservedTargetName = some n → n ≠ "" →
      aGet reserved n = some r.id → (aKeys reserved).Nodup →
      aGet (releaseReservation reserved r).1 n = none) := by
  refine ⟨rfl, ?_, ?_, ?_⟩
  · intro n hne
    unfold releaseReservation
    dsimp only
    rcases hres : r.reservedTargetName with _ | name
    · rfl
    · rw [hres] at hne
      dsimp only
      split
      · exact aGet_aDel_ne reserved name n
          (fun hh => hne (congrArg some hh))
      · rfl
  · intro n hres hne hown
    unfold releaseReservation
    dsimp only
    rw [hres]
    dsimp only
    rw [if_neg]
    intro hc
    exact hown hc.2
  · intro n hres hne hown hnd
    unfold releaseReservation
    dsimp only
    rw [hres]
    dsimp only
    rw [if_pos (And.intro hne hown)]
    exact aGet_aDel_self reserved n hnd

/-- Concrete data for the C8 witness: two reservations, the record owns
`wp1`. -/
noncomputable def recC8 : BotRecord :=
  { id := "bot-1"
    networkId := "nid"
    lastOwnerTime := 0
    position := { x := 0, y := 0, z := 0 }
    homePosition := { x := 0, y := 0, z := 0 }
    yawDeg := 0
    state := "idle"
    stateEndsAt := 0
    mobility := "medium"
    destination := none
    reservedTargetName := some "wp1"
    path := none }

def resC8 : List (String × String) := [("wp1", "bot-1"), ("wp2", "bot-2")]

/-- Witness for C8 at concrete data: own entry removed, foreign entry
kept, reserved name nulled. -/
theorem C8_releaseReservation_owner_scoped_witness :
    (releaseReservation resC8 recC8).2.reservedTargetName = none ∧
      aGet (releaseReservation resC8 recC8).1 "wp2" = some "bot-2" ∧
      aGet (releaseReservation resC8 recC8).1 "wp1" = none :=
  ⟨(C8_releaseReservation_owner_scoped resC8 recC8).1,
    by
      rw [(C8_releaseReservation_owner_scoped resC8 recC8).2.1 "wp2"
        (by decide)]
      decide,
    (C8_releaseReservation_owner_scoped resC8 recC8).2.2.2 "wp1" rfl
      (by decide) (by decide) (by decide)⟩

/-! ### C10: totality of normalizeBotsConfig -/

/-- C10: for every input (objects with arbitrary field values, non-objects,
null), the normalized config has boolean `enabled`/`chat_enabled` equal to
the input fields' truthiness, an integral `count` in `[0, 10]` that is `0`
whenever `Number(count || 0)` is not finite, and a mobility that equals
"low" or "high" exactly when the input mobility is that string, and
"medium" otherwise. -/
theorem C10_normalizeBotsConfig_total (bots : BotsInput) :
    (∃ n : ℤ, (normalizeBotsConfig bots).count = (n : ℝ)) ∧
    0 ≤ (normalizeBotsConfig bots).count ∧
    (normalizeBotsConfig bots).count ≤ 10 ∧
    ((if (botsSource bots).count.truthy then (botsSource bots).count
        else JSVal.number (some 0)).toFiniteNumber = none →
      (normalizeBotsConfig bots).count = 0) ∧
    (normalizeBotsConfig bots).enabled = (botsSource bots).enabled.truthy ∧
    (normalizeBotsConfig bots).chat_enabled =
      (botsSource bots).chat_enabled.truthy ∧
    (∀ s : String, s = "low" ∨ s = "high" →
      ((normalizeBotsConfig bots).mobility = s ↔
        ∃ nv, (botsSource bots).mobility = JSVal.jsString s nv)) ∧
    ((normalizeBotsConfig bots).mobility = "low" ∨
      (normalizeBotsConfig bots).mobility = "medium" ∨
      (normalizeBotsConfig bots).mobility = "high") := by
  have hcount : (normalizeBotsConfig bots).count =
      match (if (botsSource bots).count.truthy then (botsSource bots).count
        else JSVal.number (some 0)).toFiniteNumber with
      | some x => clampR ((⌊x⌋ : ℤ) : ℝ) 0 10
      | none => 0 := rfl
  have hmob : (normalizeBotsConfig bots).mobility =
      match (botsSource bots).mobility with
      | .jsString s _ => if s = "low" ∨ s = "high" then s else "medium"
      | _ => "medium" := rfl
  refine ⟨?_, ?_, ?_, ?_, rfl, rfl, ?_, ?_⟩
  · rw [hcount]
    rcases (if (botsSource bots).count.truthy then (botsSource bots).count
        else JSVal.number (some 0)).toFiniteNumber with _ | x
    · exact ⟨0, by simp⟩
    · refine ⟨max 0 (min 10 ⌊x⌋), ?_⟩
      dsimp only
      rw [clampR]
      push_cast
      rfl
  · rw [hcount]
    rcases (if (botsSource bots).count.truthy then (botsSource bots).count
        else JSVal.number (some 0)).toFiniteNumber with _ | x
    · simp
    · exact le_max_left 0 _
  · rw [hcount]
    rcases (if (botsSource bots).count.truthy then (botsSource bots).count
        else JSVal.number (some 0)).toFiniteNumber with _ | x
    · simp
    · dsimp only
      rw [clampR]
      exact max_le (by norm_num) (min_le_left 10 _)
  · intro hnone
    rw [hcount, hnone]
  · intro s hs
    rw [hmob]
    rcases hm : (botsSource bots).mobility with _ | _ | b | v | p | ⟨str, nv⟩
    · constructor
      · intro hmed
        dsimp only at hmed
        rcases hs with rfl | rfl
        · exact absurd hmed (by decide)
        · exact absurd hmed (by decide)
      · rintro ⟨nv', hnv⟩
        simp at hnv
    · constructor
      · intro hmed
        dsimp only at hmed
        rcases hs with rfl | rfl
        · exact absurd hmed (by decide)
        · exact absurd hmed (by decide)
      · rintro ⟨nv', hnv⟩
        simp at hnv
    · constructor
      · intro hmed
        dsimp only at hmed
        rcases hs with rfl | rfl
        · exact absurd hmed (by decide)
        · exact absurd hmed (by decide)
      · rintro ⟨nv', hnv⟩
        simp at hnv
    · constructor
      · intro hmed
        dsimp only at hmed
        rcases hs with rfl | rfl
        · exact absurd hmed (by decide)
        · exact absurd hmed (by decide)
      · rintro ⟨nv', hnv⟩
        simp at hnv
    · constructor
      · intro hmed
        dsimp only at hmed
        rcases hs with rfl | rfl
        · exact absurd hmed (by decide)
        · exact absurd hmed (by decide)
      · rintro ⟨nv', hnv⟩
        simp at hnv
    · constructor
      · intro heq
        dsimp only at heq
        split at heq
        · exact ⟨nv, by rw [heq]⟩
        · exfalso
          rcases hs with rfl | rfl
          · exact absurd heq (by decide)
          · exact absurd heq (by decide)
      · rintro ⟨nv', hnv⟩
        injection hnv with h1 h2
        subst h1
        dsimp only
        rw [if_pos hs]
  · rw [hmob]
    rcases hm : (botsSource bots).mobility with _ | _ | b | v | p | ⟨str, nv⟩
    · exact Or.inr (Or.inl rfl)
    · exact Or.inr (Or.inl rfl)
    · exact Or.inr (Or.inl rfl)
    · exact Or.inr (Or.inl rfl)
    · exact Or.inr (Or.inl rfl)
    · dsimp only
      split
      · rename_i hslh
        rcases hslh with rfl | rfl
        · exact Or.inl rfl
        · exact Or.inr (Or.inr rfl)
      · exact Or.inr (Or.inl rfl)

/-- Concrete C10 witness input: an object with a truthy non-numeric count
string, mobility "low" and null chat flag. -/
def inC10 : BotsInput :=
  .obj { enabled := .boolean true
         count := .jsString "abc" none
         mobility := .jsString "low" none
         chat_enabled := .jsNull }

/-- Witness for C10: the NaN-count input yields count 0 and mobility
"low" is passed through. -/
theorem C10_normalizeBotsConfig_total_witness :
    ((if (botsSource inC10).count.truthy then (botsSource inC10).count
        else JSVal.number (some 0)).toFiniteNumber = none ∧
      ("low" = "low" ∨ ("low" : String) = "high")) ∧
      (normalizeBotsConfig inC10).count = 0 ∧
      ((normalizeBotsConfig inC10).mobility = "low" ↔
        ∃ nv, (botsSource inC10).mobility = JSVal.jsString "low" nv) :=
  ⟨⟨by decide, Or.inl rfl⟩,
    (C10_normalizeBotsConfig_total inC10).2.2.2.1 (by decide),
    (C10_normalizeBotsConfig_total inC10).2.2.2.2.2.2.1 "low" (Or.inl rfl)⟩

/-! ### C9: an aborted commanded walk keeps the fresh reservation -/

theorem updateRecordPositionFromPath_id (r : BotRecord) (now : ℝ) :
    (updateRecordPositionFromPath r now).id = r.id := by
  unfold updateRecordPositionFromPath
  split <;> rfl

theorem reserveTarget_record (reserved : List (String × String))
    (r : BotRecord) (name : String) (h : name ≠ "") :
    (reserveTarget reserved r name).2 =
      { r with reservedTargetName := some name } := by
  unfold reserveTarget
  rw [if_neg h]
  rfl

theorem reserveTarget_index (reserved : List (String × String))
    (r : BotRecord) (name : String) (h : name ≠ "") :
    (reserveTarget reserved r name).1 =
      aSet (releaseReservation reserved r).1 name r.id := by
  unfold reserveTarget
  rw [if_neg h]
  rfl

/-- C9: when a commanded `start_walking` selects a named waypoint target,
reserves it, and then aborts because the separated target is within
0.08 m (XZ) of the bot, the bot is left idle with destination and path
cleared and `state_ends_at = now + 800`, while the reservation made for
the waypoint name remains in the index mapped to this bot. -/
theorem C9_aborted_walk_keeps_reservation (env : Env) (s : Sim)
    (botId dn : String) (now : ℝ) (r0 : BotRecord) (t : Waypoint)
    (hrec : aGet s.bots botId = some r0)
    (hdn : dn ≠ "")
    (hfind : s.waypointData.allWaypoints.find?
      (fun p => jsLower (jsTrim p.name) = jsLower (jsTrim dn)) = some t)
    (hclear : env.raycastMode = "spoke_colliders" →
      isPathClearWithColliders s.waypointData.colliders
        (updateRecordPositionFromPath r0 now).position t.position = true)
    (hname1 : t.name ≠ "") (hname2 : t.name ≠ "__wander__")
    (hdist : Real.sqrt
      (((separateNearbyPosition t.position (botIndexFromId r0.id) []).x -
          (updateRecordPositionFromPath r0 now).position.x) *
        ((separateNearbyPosition t.position (botIndexFromId r0.id) []).x -
          (updateRecordPositionFromPath r0 now).position.x) +
        ((separateNearbyPosition t.position (botIndexFromId r0.id) []).z -
          (updateRecordPositionFromPath r0 now).position.z) *
        ((separateNearbyPosition t.position (botIndexFromId r0.id) []).z -
          (updateRecordPositionFromPath r0 now).position.z)) ≤ 0.08) :
    ∃ r4 : BotRecord,
      aGet (startWalking env s botId (some dn) now).bots botId = some r4 ∧
      r4.state = "idle" ∧ r4.destination = none ∧ r4.path = none ∧
      r4.stateEndsAt = now + 800 ∧ r4.reservedTargetName = some t.name ∧
      aGet (startWalking env s botId (some dn) now).reservedTargets t.name =
        some r0.id ∧
      (startWalking env s botId (some dn) now).outputs = s.outputs := by
  have hid : (updateRecordPositionFromPath r0 now).id = r0.id :=
    updateRecordPositionFromPath_id r0 now
  have hr3 : (reserveTarget s.reservedTargets
      (updateRecordPositionFromPath r0 now) t.name).2 =
      { updateRecordPositionFromPath r0 now with
        reservedTargetName := some t.name } :=
    reserveTarget_record _ _ _ hname1
  have hsw : startWalking env s botId (some dn) now =
      { s with
        bots := aSet s.bots botId
          { (reserveTarget s.reservedTargets
              (updateRecordPositionFromPath r0 now) t.name).2 with
            state := "idle"
            destination := none
            path := none
            stateEndsAt := now + 800 }
        reservedTargets := (reserveTarget s.reservedTargets
          (updateRecordPositionFromPath r0 now) t.name).1
        rngK := s.rngK } := by
    unfold startWalking
    rw [hrec]
    dsimp only
    rw [if_neg hdn, hfind]
    dsimp only
    by_cases hrc : env.raycastMode = "spoke_colliders"
    · rw [if_pos hrc, hclear hrc,
        if_pos (show (true : Bool) = true from rfl)]
      dsimp only
      rw [if_pos (And.intro hname1 hname2)]
      rw [hr3]
      dsimp only
      rw [hid]
      rw [if_pos hdist]
    · rw [if_neg hrc]
      dsimp only
      rw [if_pos (And.intro hname1 hname2)]
      rw [hr3]
      dsimp only
      rw [hid]
      rw [if_pos hdist]
  refine ⟨{ (reserveTarget s.reservedTargets
      (updateRecordPositionFromPath r0 now) t.name).2 with
    state := "idle"
    destination := none
    path := none
    stateEndsAt := now + 800 }, ?_, rfl, rfl, rfl, rfl, ?_, ?_, ?_⟩
  · rw [hsw]
    dsimp only
    exact aGet_aSet_self _ _ _
  · rw [hr3]
  · rw [hsw]
    dsimp only
    rw [reserveTarget_index _ _ _ hname1, aGet_aSet_self, hid]
  · rw [hsw]

/-- Concrete runner environment for witnesses: zero oracles, default
raycast mode and path tuning. -/
noncomputable def envC9 : Env :=
  { rng := fun _ => 0
    tk := fun _ => 0
    raycastMode := "spoke_colliders"
    pathStartDelayMs := 450
    minWalkDurationMs := 600
    hubSid := "hub"
    sessionId := "sess"
    avatarRefs := []
    fullbodyRefs := []
    avatarRotationOffset := 0 }

noncomputable def wpC9 : Waypoint :=
  { name := "spawbot-x", position := { x := 0, y := 0, z := 0 } }

noncomputable def recC9 : BotRecord :=
  { id := "bot-1"
    networkId := "room-bot-hub-bot-1"
    lastOwnerTime := 0
    position := { x := 0, y := 0, z := 0 }
    homePosition := { x := 0, y := 0, z := 0 }
    yawDeg := 0
    state := "idle"
    stateEndsAt := 0
    mobility := "medium"
    destination := none
    reservedTargetName := none
    path := none }

noncomputable def sC9 : Sim :=
  { botsConfig := { enabled := true
                    count := 1
                    mobility := "medium"
                    chat_enabled := true }
    waypointData := { spawnPoints := []
                      patrolPoints := []
                      allWaypoints := [wpC9]
                      colliders := [] }
    bots := [(("bot-1" : String), recC9)]
    reservedTargets := []
    outputs := []
    rngK := 0
    tkK := 0 }

/-- Witness for C9: commanding the bot to the waypoint it is standing on
aborts the walk but keeps the reservation. -/
theorem C9_aborted_walk_keeps_reservation_witness :
    ∃ r4 : BotRecord,
      aGet (startWalking envC9 sC9 ("bot-1") (some ("spawbot-x")) 0).bots
          ("bot-1") = some r4 ∧
      r4.state = "idle" ∧ r4.destination = none ∧ r4.path = none ∧
      r4.stateEndsAt = 0 + 800 ∧ r4.reservedTargetName = some wpC9.name ∧
      aGet (Sim.reservedTargets
        (startWalking envC9 sC9 ("bot-1") (some ("spawbot-x")) 0))
        wpC9.name = some recC9.id ∧
      (startWalking envC9 sC9 ("bot-1") (some ("spawbot-x")) 0).outputs =
        sC9.outputs :=
  C9_aborted_walk_keeps_reservation envC9 sC9 ("bot-1") ("spawbot-x") 0
    recC9 wpC9
    (by simp [sC9, aGet])
    (by decide)
    (by
      simp only [sC9]
      exact List.find?_cons_of_pos _ (by decide))
    (fun _ => by simp [sC9, isPathClearWithColliders])
    (by decide) (by decide)
    (by
      have hidx : botIndexFromId recC9.id = 0 := by decide
      have hsep : separateNearbyPosition wpC9.position
          (botIndexFromId recC9.id) [] = wpC9.position := by
        rw [hidx]
        simp [separateNearbyPosition]
      have hupd : updateRecordPositionFromPath recC9 0 = recC9 := rfl
      rw [hsep, hupd]
      have hx : wpC9.position.x - recC9.position.x = 0 := by
        simp [wpC9, recC9]
      have hz : wpC9.position.z - recC9.position.z = 0 := by
        simp [wpC9, recC9]
      rw [hx, hz]
      rw [show (0 : ℝ) * 0 + 0 * 0 = 0 by ring, Real.sqrt_zero]
      norm_num)

/-! ### C7: line-of-sight symmetry -/

noncomputable def identityMat4 : Mat4 :=
  { m0 := 1, m1 := 0, m2 := 0, m3 := 0
    m4 := 0, m5 := 1, m6 := 0, m7 := 0
    m8 := 0, m9 := 0, m10 := 1, m11 := 0
    m12 := 0, m13 := 0, m14 := 0, m15 := 1 }

/-- A collider whose world transform (and inverse) is the identity: the
unit cube centred at the origin. -/
noncomputable def collC7 : BoxCollider :=
  { name := "origin-box-collider", world := identityMat4, inv := identityMat4 }

theorem sqrt_nine : Real.sqrt 9 = 3 := by
  rw [show (9 : ℝ) = 3 ^ 2 by norm_num]
  exact Real.sqrt_sq (by norm_num)

theorem transform_id_C7 (v : Vec3) : transformMat4 v identityMat4 = v := by
  unfold transformMat4 identityMat4
  norm_num

theorem seg_C7_fwd : segmentIntersectsUnitAabb { x := 0, y := 1/5, z := 0 }
    { x := 3, y := 1/5, z := 0 } = some (0, 1/6) := by
  unfold segmentIntersectsUnitAabb slabAxis
  norm_num

theorem seg_C7_rev : segmentIntersectsUnitAabb { x := 3, y := 1/5, z := 0 }
    { x := 0, y := 1/5, z := 0 } = some (5/6, 1) := by
  unfold segmentIntersectsUnitAabb slabAxis
  norm_num

/-- C7 counterexample: with the origin unit-cube collider, the path from a
point inside the collider to (3,0,0) is reported clear (the entry
parameter is 0, inside the endpoint tolerance), but the reverse direction
is blocked: `is_path_clear` is not symmetric in its endpoints. -/
theorem C7_counterexample :
    isPathClearWithColliders [collC7] { x := 0, y := 0, z := 0 }
        { x := 3, y := 0, z := 0 } = true ∧
      isPathClearWithColliders [collC7] { x := 3, y := 0, z := 0 }
        { x := 0, y := 0, z := 0 } = false := by
  constructor
  · unfold isPathClearWithColliders
    norm_num
    refine Or.inr ?_
    rw [show collC7.inv = identityMat4 from rfl]
    rw [transform_id_C7, transform_id_C7, seg_C7_fwd]
    dsimp only
    rw [sqrt_nine]
    norm_num [clampR]
  · unfold isPathClearWithColliders
    norm_num
    constructor
    · rw [sqrt_nine]
      norm_num
    · rw [show collC7.inv = identityMat4 from rfl]
      rw [transform_id_C7, transform_id_C7, seg_C7_rev]
      dsimp only
      rw [sqrt_nine]
      norm_num [clampR]

/-- C7 (amended): `is_path_clear` is NOT symmetric in its endpoints in
general (the blocking test examines only the entry parameter of each hit,
so a collider overlapping one endpoint region can block one direction
only — see the counterexample).  Symmetry does hold when there are no
colliders, and when the lifted segment is within the `2·eps` short-segment
early-out, where both directions return `true`. -/
theorem C7_isPathClear_symmetry_restricted (colliders : List BoxCollider)
    (p q : Vec3) (eps : ℝ)
    (h : colliders = [] ∨
      Real.sqrt ((q.x - p.x) ^ 2 + (q.y + 0.2 - (p.y + 0.2)) ^ 2 +
        (q.z - p.z) ^ 2) ≤ eps * 2) :
    isPathClearWithColliders colliders p q eps =
      isPathClearWithColliders colliders q p eps := by
  rcases h with rfl | hshort
  · rfl
  · unfold isPathClearWithColliders
    dsimp only
    by_cases hc : colliders.length = 0
    · rw [if_pos hc, if_pos hc]
    · rw [if_neg hc, if_neg hc]
      have hsym : Real.sqrt ((p.x - q.x) ^ 2 + (p.y + 0.2 - (q.y + 0.2)) ^ 2 +
          (p.z - q.z) ^ 2) =
          Real.sqrt ((q.x - p.x) ^ 2 + (q.y + 0.2 - (p.y + 0.2)) ^ 2 +
            (q.z - p.z) ^ 2) :=
        congrArg Real.sqrt (by ring)
      have hs2 : Real.sqrt ((p.x - q.x) ^ 2 + (p.y + 0.2 - (q.y + 0.2)) ^ 2 +
          (p.z - q.z) ^ 2) ≤ eps * 2 := by
        rw [hsym]
        exact hshort
      rw [if_pos hshort, if_pos hs2]

/-- Witness for C7 (amended) at concrete inputs with no colliders. -/
theorem C7_isPathClear_symmetry_restricted_witness :
    (([] : List BoxCollider) = [] ∨
      Real.sqrt (((6 : ℝ) - 1) ^ 2 + ((5 : ℝ) + 0.2 - (2 + 0.2)) ^ 2 +
        ((4 : ℝ) - 3) ^ 2) ≤ 0.1 * 2) ∧
    isPathClearWithColliders [] { x := 1, y := 2, z := 3 }
        { x := 6, y := 5, z := 4 } 0.1 =
      isPathClearWithColliders [] { x := 6, y := 5, z := 4 }
        { x := 1, y := 2, z := 3 } 0.1 :=
  ⟨Or.inl rfl,
    C7_isPathClear_symmetry_restricted [] { x := 1, y := 2, z := 3 }
      { x := 6, y := 5, z := 4 } 0.1 (Or.inl rfl)⟩

noncomputable def invC3 : Mat4 :=
  { m0 := 1, m1 := 0, m2 := 0, m3 := 0
    m4 := 0, m5 := 1, m6 := 0, m7 := 0
    m8 := 0, m9 := 0, m10 := 1, m11 := 0
    m12 := -1.5, m13 := 0, m14 := 0, m15 := 1 }

noncomputable def worldC3 : Mat4 :=
  { m0 := 1, m1 := 0, m2 := 0, m3 := 0
    m4 := 0, m5 := 1, m6 := 0, m7 := 0
    m8 := 0, m9 := 0, m10 := 1, m11 := 0
    m12 := 1.5, m13 := 0, m14 := 0, m15 := 1 }

noncomputable def collC3 : BoxCollider :=
  { name := "mid-box-collider", world := worldC3, inv := invC3 }

theorem transform_inv_C3_a : transformMat4 { x := 0, y := 1/5, z := 0 } invC3
    = { x := -1.5, y := 1/5, z := 0 } := by
  unfold transformMat4 invC3
  norm_num

theorem transform_inv_C3_b : transformMat4 { x := 3, y := 1/5, z := 0 } invC3
    = { x := 1.5, y := 1/5, z := 0 } := by
  unfold transformMat4 invC3
  norm_num

theorem seg_C3 : segmentIntersectsUnitAabb { x := -1.5, y := 1/5, z := 0 }
    { x := 1.5, y := 1/5, z := 0 } = some (1/3, 2/3) := by
  unfold segmentIntersectsUnitAabb slabAxis
  norm_num

theorem blocked_C3 : isPathClearWithColliders [collC3]
    { x := 0, y := 0, z := 0 } { x := 3, y := 0, z := 0 } = false := by
  unfold isPathClearWithColliders
  norm_num
  constructor
  · rw [sqrt_nine]
    norm_num
  · rw [show collC3.inv = invC3 from rfl]
    rw [transform_inv_C3_a, transform_inv_C3_b, seg_C3]
    dsimp only
    rw [sqrt_nine]
    norm_num [clampR]

noncomputable def wpC3 : Waypoint :=
  { name := "spawbot-north", position := { x := 3, y := 0, z := 0 } }

noncomputable def sC3 : Sim :=
  { botsConfig := { enabled := true
                    count := 1
                    mobility := "medium"
                    chat_enabled := true }
    waypointData := { spawnPoints := []
                      patrolPoints := []
                      allWaypoints := [wpC3]
                      colliders := [collC3] }
    bots := [(("bot-1" : String), recC9)]
    reservedTargets := []
    outputs := []
    rngK := 0
    tkK := 0 }

theorem hcmdC3 : handleBotCommand envC9 sC3 ("bot-1") ("go_to_waypoint")
      (some ("spawbot-north"))
    = startWalking envC9 { sC3 with tkK := 1 } ("bot-1")
      (some ("spawbot-north")) 0 := by
  unfold handleBotCommand
  rw [if_neg (by decide)]
  rw [show aGet sC3.bots ("bot-1") = some recC9 by simp [sC3, aGet]]
  dsimp only
  rw [if_pos (And.intro rfl (by decide))]
  rfl

set_option maxHeartbeats 1000000 in
/-- With the commanded waypoint hard-blocked by a collider the bot does not
stay idle: `startWalking` falls through to the wander fallback, sets the
record walking and publishes an `nafr` Update. -/
theorem C3_counterexample :
    (∃ rec, aGet (handleBotCommand envC9 sC3 ("bot-1") ("go_to_waypoint")
        (some ("spawbot-north"))).bots ("bot-1") = some rec ∧
      rec.state = "walk") ∧
    ∃ pl, (handleBotCommand envC9 sC3 ("bot-1") ("go_to_waypoint")
        (some ("spawbot-north"))).outputs = [ChanMsg.nafr pl] := by
  rw [hcmdC3]
  unfold startWalking
  rw [show aGet ({ sC3 with tkK := 1 } : Sim).bots ("bot-1") = some recC9
    from by simp [sC3, aGet]]
  dsimp only
  rw [if_neg (show ¬("spawbot-north" = "") from by decide)]
  rw [show ({ sC3 with tkK := 1 } : Sim).waypointData.allWaypoints.find?
      (fun p => jsLower (jsTrim p.name) = jsLower (jsTrim ("spawbot-north")))
      = some wpC3 from by
    simp only [sC3]
    exact List.find?_cons_of_pos _ (by decide)]
  dsimp only
  rw [if_pos (show envC9.raycastMode = "spoke_colliders" from rfl)]
  rw [show isPathClearWithColliders
      ({ sC3 with tkK := 1 } : Sim).waypointData.colliders
      (updateRecordPositionFromPath recC9 0).position wpC3.position = false
    from by
      rw [show ({ sC3 with tkK := 1 } : Sim).waypointData.colliders
        = [collC3] from rfl]
      rw [show (updateRecordPositionFromPath recC9 0).position
        = { x := 0, y := 0, z := 0 } from rfl]
      rw [show wpC3.position = { x := 3, y := 0, z := 0 } from rfl]
      exact blocked_C3]
  rw [if_neg (show ¬((false : Bool) = true) from by simp)]
  dsimp only
  rw [show pickPatrolPoint envC9 ({ sC3 with tkK := 1 } : Sim).reservedTargets
      ({ sC3 with tkK := 1 } : Sim).waypointData
      (updateRecordPositionFromPath recC9 0)
      ((updateRecordPositionFromPath recC9 0).destination.map (fun d => d.name))
      ({ sC3 with tkK := 1 } : Sim).rngK = (none, 0) from rfl]
  dsimp only
  rw [if_neg (show ¬(("__wander__" : String) ≠ "" ∧ ("__wander__" : String) ≠ "__wander__") from by decide)]
  rw [show releaseReservation sC3.reservedTargets
      (updateRecordPositionFromPath recC9 0) = ([], recC9) from rfl]
  dsimp only
  rw [show envC9.rng 0 = 0 from rfl]
  rw [show envC9.rng (0 + 1) = 0 from rfl]
  rw [show (0 : ℝ) * Real.pi * 2 = 0 from by ring]
  rw [Real.cos_zero, Real.sin_zero]
  rw [show botIndexFromId recC9.id = 0 from by decide]
  rw [show (updateRecordPositionFromPath recC9 0) = recC9 from rfl]
  rw [show ({ x := recC9.homePosition.x + 1 * (0.8 + 0 * 1.2)
              y := recC9.position.y
              z := recC9.homePosition.z + 0 * (0.8 + 0 * 1.2) } : Vec3)
    = { x := 0.8, y := 0, z := 0 } from by
      simp only [recC9]
      norm_num]
  rw [show separateNearbyPosition { x := 0.8, y := 0, z := 0 } 0 []
    = { x := 0.8, y := 0, z := 0 } from by simp [separateNearbyPosition]]
  rw [show recC9.position.x = 0 from rfl]
  rw [show recC9.position.z = 0 from rfl]
  rw [show ((0.8 - 0) * (0.8 - 0) + (0 - 0) * (0 - 0) : ℝ) = (4/5) ^ 2
    from by norm_num]
  rw [Real.sqrt_sq (show (0:ℝ) ≤ 4/5 from by norm_num)]
  rw [if_neg (show ¬((4/5 : ℝ) ≤ 0.08) from by norm_num)]
  exact ⟨⟨_, aGet_aSet_self _ _ _, rfl⟩, _, rfl⟩

/-- The collider-blocked state of the C3 scenario: the straight segment from
the bot to the commanded waypoint pierces `collC3`. -/
theorem blocked_C3_inst : isPathClearWithColliders sC3.waypointData.colliders
    (updateRecordPositionFromPath recC9 0).position wpC3.position = false := by
  rw [show sC3.waypointData.colliders = [collC3] from rfl]
  rw [show (updateRecordPositionFromPath recC9 0).position
    = { x := 0, y := 0, z := 0 } from rfl]
  rw [show wpC3.position = { x := 3, y := 0, z := 0 } from rfl]
  exact blocked_C3

/-- C3: the spec says a bot commanded to an unreachable waypoint stays idle;
in fact when the commanded waypoint exists but the raycast says the path is
blocked, `startWalking` behaves exactly as if no waypoint had been commanded
(falls through to patrol/wander selection), so the bot generally walks and
publishes an Update (see `C3_counterexample`). -/
theorem C3_blocked_command_falls_through (env : Env) (s : Sim)
    (botId dn : String) (now : ℝ) (r0 : BotRecord) (t : Waypoint)
    (hrec : aGet s.bots botId = some r0)
    (hdn : ¬(dn = ""))
    (hfind : s.waypointData.allWaypoints.find?
      (fun p => jsLower (jsTrim p.name) = jsLower (jsTrim dn)) = some t)
    (hrc : env.raycastMode = "spoke_colliders")
    (hblocked : isPathClearWithColliders s.waypointData.colliders
      (updateRecordPositionFromPath r0 now).position t.position = false) :
    startWalking env s botId (some dn) now
      = startWalking env s botId none now := by
  unfold startWalking
  rw [hrec]
  dsimp only
  rw [if_neg hdn, hfind]
  dsimp only
  rw [if_pos hrc, hblocked]
  rw [if_neg (show ¬((false : Bool) = true) from by simp)]

theorem C3_blocked_command_falls_through_witness :
    startWalking envC9 sC3 ("bot-1") (some ("spawbot-north")) 0
      = startWalking envC9 sC3 ("bot-1") none 0 :=
  C3_blocked_command_falls_through envC9 sC3 ("bot-1") ("spawbot-north") 0
    recC9 wpC3
    (by simp [sC3, aGet])
    (by decide)
    (by
      simp only [sC3]
      exact List.find?_cons_of_pos _ (by decide))
    rfl
    blocked_C3_inst

/-! ### C4: reconciliation membership -/

/-- Renaming the values of an association list leaves its key list
unchanged. -/
theorem aKeys_map_mobility (l : List (String × BotRecord)) (m : String) :
    aKeys (l.map (fun kv => (kv.1, { kv.2 with mobility := m }))) = aKeys l := by
  induction l with
  | nil => rfl
  | cons kv rest ih =>
    simp only [aKeys, List.map_cons] at *
    rw [ih]

/-- One removal-loop iteration: the key set loses exactly `bot-<i>`. -/
theorem reconcileRemove_keys (s : Sim) (i : ℕ)
    (h : (aKeys s.bots).Nodup) :
    (aKeys (reconcileRemove s i).bots).Nodup ∧
    ∀ x, x ∈ aKeys (reconcileRemove s i).bots ↔
      x ∈ aKeys s.bots ∧ x ≠ "bot-" ++ toString i := by
  unfold reconcileRemove
  dsimp only
  rcases hget : aGet s.bots ("bot-" ++ toString i) with _ | record
  · refine ⟨h, fun x => ⟨fun hx => ⟨hx, ?_⟩, fun hx => hx.1⟩⟩
    intro hxe
    subst hxe
    rw [mem_aKeys_iff, hget] at hx
    exact absurd hx (by simp)
  · exact ⟨aKeys_aDel_nodup _ _ h, fun x => mem_aKeys_aDel _ _ _ h⟩

/-- The removal fold deletes exactly the keys named by the index list. -/
theorem remFold_keys (L : List ℕ) (s : Sim)
    (h : (aKeys s.bots).Nodup) :
    (aKeys (L.foldl reconcileRemove s).bots).Nodup ∧
    ∀ x, x ∈ aKeys (L.foldl reconcileRemove s).bots ↔
      x ∈ aKeys s.bots ∧ ∀ i ∈ L, x ≠ "bot-" ++ toString i := by
  induction L generalizing s with
  | nil => exact ⟨h, fun x => by simp⟩
  | cons j rest ih =>
    obtain ⟨h1, h2⟩ := reconcileRemove_keys s j h
    obtain ⟨h3, h4⟩ := ih (reconcileRemove s j) h1
    refine ⟨h3, fun x => ?_⟩
    simp only [List.foldl_cons]
    rw [h4 x, h2 x]
    constructor
    · rintro ⟨⟨hm, hne⟩, hrest⟩
      refine ⟨hm, fun i hi => ?_⟩
      rcases List.mem_cons.mp hi with hij | hi
      · subst hij
        exact hne
      · exact hrest i hi
    · rintro ⟨hm, hall⟩
      exact ⟨⟨hm, hall j (List.mem_cons_self j rest)⟩,
        fun i hi => hall i (List.mem_cons_of_mem j hi)⟩

/-- One creation-loop iteration: the key set gains (at most) `bot-<i>`. -/
theorem reconcileAddOne_keys (env : Env) (now : ℝ) (acc : Sim × List Vec3)
    (i : ℕ) (x : String) :
    x ∈ aKeys ((reconcileAddOne env now acc i).1).bots ↔
      x ∈ aKeys acc.1.bots ∨ x = "bot-" ++ toString i := by
  unfold reconcileAddOne
  dsimp only
  rcases hget : aGet acc.1.bots ("bot-" ++ toString i) with _ | record
  · dsimp only [sendNaf]
    rw [mem_aKeys_aSet]
  · constructor
    · exact Or.inl
    · rintro (hm | hx)
      · exact hm
      · subst hx
        rw [mem_aKeys_iff, hget]
        rfl

/-- The creation fold adds exactly the keys named by the index list. -/
theorem addFold_keys (env : Env) (now : ℝ) (L : List ℕ)
    (acc : Sim × List Vec3) (x : String) :
    x ∈ aKeys ((L.foldl (reconcileAddOne env now) acc).1).bots ↔
      x ∈ aKeys acc.1.bots ∨ ∃ i ∈ L, x = "bot-" ++ toString i := by
  induction L generalizing acc with
  | nil => simp
  | cons j rest ih =>
    simp only [List.foldl_cons]
    rw [ih (reconcileAddOne env now acc j), reconcileAddOne_keys]
    constructor
    · rintro ((hm | hx) | ⟨i, hi, hx⟩)
      · exact Or.inl hm
      · exact Or.inr ⟨j, List.mem_cons_self j rest, hx⟩
      · exact Or.inr ⟨i, List.mem_cons_of_mem j hi, hx⟩
    · rintro (hm | ⟨i, hi, hx⟩)
      · exact Or.inl (Or.inl hm)
      · rcases List.mem_cons.mp hi with hij | hi
        · exact Or.inl (Or.inr (by rw [hx, hij]))
        · exact Or.inr ⟨i, hi, hx⟩

/-- In the enabled branch, membership in the reconciled key set is removal
from the out-of-range block followed by creation of the in-range block. -/
theorem reconcileBots_keys_enabled (env : Env) (s : Sim) (now : ℝ)
    (hns : ¬(s.botsConfig.enabled = false ∨ s.botsConfig.count = 0))
    (hnodup : (aKeys s.bots).Nodup) (k : String) :
    k ∈ aKeys (reconcileBots env s now).bots ↔
      ((k ∈ aKeys s.bots ∧
        ∀ i ∈ List.range' (min s.botsConfig.count 10 + 1)
          (10 - min s.botsConfig.count 10), k ≠ "bot-" ++ toString i) ∨
      ∃ i ∈ List.range' 1 (min s.botsConfig.count 10),
        k = "bot-" ++ toString i) := by
  unfold reconcileBots
  rw [if_neg hns]
  dsimp only
  rw [aKeys_map_mobility, addFold_keys]
  dsimp only
  rw [(remFold_keys _ s hnodup).2 k]

/-- C4: after `reconcileBots` the live keys are exactly
`bot-1 .. bot-(min count 10)` when bots are enabled with a positive count
(given that the pre-state keys are themselves generated bot ids), and a
disabled or zero-count config wipes all bots, publishing one Remove per
previously live record. -/
theorem C4_reconciliation_membership (env : Env) (s : Sim) (now : ℝ)
    (hnodup : (aKeys s.bots).Nodup)
    (hsub : ∀ k ∈ aKeys s.bots,
      ∃ i, 1 ≤ i ∧ i ≤ 10 ∧ k = "bot-" ++ toString i) :
    (s.botsConfig.enabled = true → s.botsConfig.count ≠ 0 →
      ∀ k, k ∈ aKeys (reconcileBots env s now).bots ↔
        ∃ i, 1 ≤ i ∧ i ≤ min s.botsConfig.count 10 ∧
          k = "bot-" ++ toString i) ∧
    ((s.botsConfig.enabled = false ∨ s.botsConfig.count = 0) →
      (reconcileBots env s now).bots = [] ∧
      (reconcileBots env s now).outputs = s.outputs ++ s.bots.map
        (fun kv => ChanMsg.naf (removeEntityPayload kv.2.networkId))) := by
  constructor
  · intro hen hcnt k
    rw [reconcileBots_keys_enabled env s now (by simp [hen, hcnt]) hnodup k]
    constructor
    · rintro (⟨hm, hall⟩ | ⟨i, hi, hx⟩)
      · obtain ⟨j, hj1, hj10, hkj⟩ := hsub k hm
        refine ⟨j, hj1, ?_, hkj⟩
        by_contra hgt
        push_neg at hgt
        exact hall j (by simp only [List.mem_range'_1]; omega) hkj
      · rw [List.mem_range'_1] at hi
        exact ⟨i, hi.1, by omega, hx⟩
    · rintro ⟨i, h1, hle, hx⟩
      exact Or.inr ⟨i, by simp only [List.mem_range'_1]; omega, hx⟩
  · intro hdis
    unfold reconcileBots
    rw [if_pos hdis]
    by_cases hb : s.bots.length ≠ 0
    · rw [if_pos hb]
      exact ⟨rfl, rfl⟩
    · rw [if_neg hb]
      push_neg at hb
      have hnil : s.bots = [] := List.length_eq_zero.mp hb
      rw [hnil]
      exact ⟨rfl, by simp⟩

/-- Concrete C4 witness state: bots disabled, no live records. -/
noncomputable def sC4 : Sim :=
  { botsConfig := { enabled := false
                    count := 0
                    mobility := "medium"
                    chat_enabled := true }
    waypointData := { spawnPoints := []
                      patrolPoints := []
                      allWaypoints := []
                      colliders := [] }
    bots := []
    reservedTargets := []
    outputs := []
    rngK := 0
    tkK := 0 }

theorem C4_reconciliation_membership_witness :
    (reconcileBots envC9 sC4 0).bots = [] ∧
    (reconcileBots envC9 sC4 0).outputs = sC4.outputs ++ sC4.bots.map
      (fun kv => ChanMsg.naf (removeEntityPayload kv.2.networkId)) :=
  (C4_reconciliation_membership envC9 sC4 0
    (by simp [sC4, aKeys])
    (by
      intro k hk
      simp [sC4, aKeys] at hk)).2 (Or.inl rfl)

/-! ### C2: reservation index consistency -/

theorem aGet_aDel_sub {α : Type} (m : List (String × α)) (k x : String)
    (v : α) (h : (aKeys m).Nodup)
    (hx : aGet (aDel m k) x = some v) : aGet m x = some v := by
  by_cases hxk : x = k
  · subst hxk
    rw [aGet_aDel_self m x h] at hx
    cases hx
  · rw [aGet_aDel_ne m k x hxk] at hx
    exact hx

/-- The direction of the reservation invariant that the code maintains:
key lists are duplicate-free, each record is stored under its own id, and
every index entry names a non-empty waypoint and points at a live record
that currently holds exactly that reservation.  (The converse direction of
the spec - every record reservation is present in the index under this
bot - is refuted by `C2_counterexample`.) -/
def ReservedInv (s : Sim) : Prop :=
  (aKeys s.bots).Nodup ∧
  (aKeys s.reservedTargets).Nodup ∧
  (∀ k rec, aGet s.bots k = some rec → rec.id = k) ∧
  (∀ r b, aGet s.reservedTargets r = some b →
    r ≠ "" ∧ ∃ rec, aGet s.bots b = some rec ∧
      rec.reservedTargetName = some r)

theorem updateRecordPositionFromPath_rtn (r : BotRecord) (now : ℝ) :
    (updateRecordPositionFromPath r now).reservedTargetName
      = r.reservedTargetName := by
  unfold updateRecordPositionFromPath
  split <;> rfl

/-- In an invariant state, an index entry owned by the record stored at
`botId` can only be the record's own reserved name. -/
theorem release_pre (s : Sim) (botId : String) (r0 r1 : BotRecord)
    (hinv : ReservedInv s) (hget : aGet s.bots botId = some r0)
    (hid1 : r1.id = r0.id)
    (hrn1 : r1.reservedTargetName = r0.reservedTargetName) :
    ∀ r, aGet s.reservedTargets r = some r1.id →
      r1.reservedTargetName = some r ∧ r ≠ "" := by
  obtain ⟨-, -, hids, hent⟩ := hinv
  intro r hr
  have hbid : r1.id = botId := by rw [hid1, hids botId r0 hget]
  rw [hbid] at hr
  rcases hent r _ hr with ⟨hne, rec, hrec, hrn⟩
  rw [hget] at hrec
  injection hrec with h
  subst h
  exact ⟨by rw [hrn1, hrn], hne⟩

/-- Entries surviving `releaseReservation` already existed and are not
owned by the releasing record. -/
theorem release_entries (index : List (String × String)) (r1 : BotRecord)
    (hnodup : (aKeys index).Nodup)
    (hres : ∀ r, aGet index r = some r1.id →
      r1.reservedTargetName = some r ∧ r ≠ "") :
    (∀ r b, aGet (releaseReservation index r1).1 r = some b →
      b ≠ r1.id ∧ aGet index r = some b) ∧
    (aKeys (releaseReservation index r1).1).Nodup := by
  unfold releaseReservation
  dsimp only
  rcases hname : r1.reservedTargetName with _ | name
  · dsimp only
    refine ⟨fun r b hb => ⟨?_, hb⟩, hnodup⟩
    intro hbid
    subst hbid
    rcases hres r hb with ⟨hsome, -⟩
    rw [hname] at hsome
    cases hsome
  · dsimp only
    by_cases hcond : name ≠ "" ∧ aGet index name = some r1.id
    · rw [if_pos hcond]
      refine ⟨fun r b hb => ?_, aKeys_aDel_nodup _ _ hnodup⟩
      have hmem : aGet index r = some b := aGet_aDel_sub _ _ _ _ hnodup hb
      refine ⟨?_, hmem⟩
      intro hbid
      subst hbid
      rcases hres r hmem with ⟨hsome, -⟩
      rw [hname] at hsome
      injection hsome with hrn
      subst hrn
      rw [aGet_aDel_self index name hnodup] at hb
      cases hb
    · rw [if_neg hcond]
      refine ⟨fun r b hb => ⟨?_, hb⟩, hnodup⟩
      intro hbid
      subst hbid
      rcases hres r hb with ⟨hsome, hne⟩
      rw [hname] at hsome
      injection hsome with hrn
      subst hrn
      exact hcond ⟨hne, hb⟩

/-- Writing a record back under its own id, together with an index each of
whose entries either belongs to the written record or survives unchanged
from an invariant state, preserves the invariant. -/
theorem reservedInv_update (s s' : Sim) (botId : String) (r4 : BotRecord)
    (index' : List (String × String)) (hinv : ReservedInv s)
    (hb : s'.bots = aSet s.bots botId r4)
    (hr : s'.reservedTargets = index')
    (hid : r4.id = botId)
    (hidxn : (aKeys index').Nodup)
    (hidx : ∀ r b, aGet index' r = some b →
      (b = botId ∧ r ≠ "" ∧ r4.reservedTargetName = some r) ∨
      (b ≠ botId ∧ aGet s.reservedTargets r = some b)) :
    ReservedInv s' := by
  obtain ⟨hn1, hn2, hids, hent⟩ := hinv
  refine ⟨?_, ?_, ?_, ?_⟩
  · rw [hb]
    exact aKeys_aSet_nodup _ _ _ hn1
  · rw [hr]
    exact hidxn
  · rw [hb]
    intro k rec hg
    by_cases hk : k = botId
    · subst hk
      rw [aGet_aSet_self] at hg
      injection hg with h
      rw [← h, hid]
    · rw [aGet_aSet_ne _ _ _ _ hk] at hg
      exact hids k rec hg
  · rw [hr, hb]
    intro r b hg
    rcases hidx r b hg with ⟨hbid, hne, hres⟩ | ⟨hbne, hold⟩
    · subst hbid
      exact ⟨hne, r4, aGet_aSet_self _ _ _, hres⟩
    · rcases hent r b hold with ⟨hne, rec, hrec, hrn⟩
      refine ⟨hne, rec, ?_, hrn⟩
      rw [aGet_aSet_ne _ _ _ _ hbne]
      exact hrec

/-- Invariant facts about `releaseReservation` applied to the record stored
at `botId` (after the position refresh). -/
theorem release_inv_parts (s : Sim) (botId : String) (r0 r1 : BotRecord)
    (hinv : ReservedInv s) (hget : aGet s.bots botId = some r0)
    (hid1 : r1.id = r0.id)
    (hrn1 : r1.reservedTargetName = r0.reservedTargetName) :
    (aKeys (releaseReservation s.reservedTargets r1).1).Nodup ∧
    (releaseReservation s.reservedTargets r1).2.id = botId ∧
    ∀ r b, aGet (releaseReservation s.reservedTargets r1).1 r = some b →
      b ≠ botId ∧ aGet s.reservedTargets r = some b := by
  have hres := release_pre s botId r0 r1 hinv hget hid1 hrn1
  have hbid : r1.id = botId := by
    rw [hid1, hinv.2.2.1 botId r0 hget]
  obtain ⟨hE, hN⟩ := release_entries s.reservedTargets r1 hinv.2.1 hres
  refine ⟨hN, ?_, fun r b hb => ?_⟩
  · show r1.id = botId
    exact hbid
  · obtain ⟨h1, h2⟩ := hE r b hb
    rw [hbid] at h1
    exact ⟨h1, h2⟩

/-- Invariant facts about `reserveTarget` applied to the record stored at
`botId` (after the position refresh), for a non-empty target name. -/
theorem reserve_inv_parts (s : Sim) (botId : String) (r0 r1 : BotRecord)
    (target : String)
    (hinv : ReservedInv s) (hget : aGet s.bots botId = some r0)
    (hid1 : r1.id = r0.id)
    (hrn1 : r1.reservedTargetName = r0.reservedTargetName)
    (htne : target ≠ "") :
    (aKeys (reserveTarget s.reservedTargets r1 target).1).Nodup ∧
    (reserveTarget s.reservedTargets r1 target).2.id = botId ∧
    (reserveTarget s.reservedTargets r1 target).2.reservedTargetName
      = some target ∧
    ∀ r b, aGet (reserveTarget s.reservedTargets r1 target).1 r = some b →
      (b = botId ∧ r ≠ "" ∧ r = target) ∨
      (b ≠ botId ∧ aGet s.reservedTargets r = some b) := by
  have hbid : r1.id = botId := by
    rw [hid1, hinv.2.2.1 botId r0 hget]
  obtain ⟨hrel, hrelN⟩ := release_entries s.reservedTargets r1 hinv.2.1
    (release_pre s botId r0 r1 hinv hget hid1 hrn1)
  rw [reserveTarget_index _ _ _ htne, reserveTarget_record _ _ _ htne]
  refine ⟨aKeys_aSet_nodup _ _ _ hrelN, hbid, rfl, fun r b hb => ?_⟩
  by_cases hrt : r = target
  · subst hrt
    rw [aGet_aSet_self] at hb
    injection hb with h
    rw [← h, hbid]
    exact Or.inl ⟨rfl, htne, rfl⟩
  · rw [aGet_aSet_ne _ _ _ _ hrt] at hb
    obtain ⟨h1, h2⟩ := hrel r b hb
    rw [hbid] at h1
    exact Or.inr ⟨h1, h2⟩

set_option maxHeartbeats 1000000 in
theorem startWalking_tail_inv (env : Env) (s : Sim) (botId : String)
    (r0 : BotRecord) (now : ℝ) (target : Waypoint) (k2 : ℕ)
    (hinv : ReservedInv s) (hget : aGet s.bots botId = some r0) :
    ReservedInv (
      let r1 := updateRecordPositionFromPath r0 now
      let res :=
        if target.name ≠ "" ∧ target.name ≠ "__wander__" then
          reserveTarget s.reservedTargets r1 target.name
        else releaseReservation s.reservedTargets r1
      let reserved3 := res.1
      let r3 := res.2
      let behavior := behaviorFor r3.mobility
      let startPos := r3.position
      let destination := separateNearbyPosition target.position
        (botIndexFromId r3.id) []
      let endPos := destination
      let dx := endPos.x - startPos.x
      let dz := endPos.z - startPos.z
      let distance := Real.sqrt (dx * dx + dz * dz)
      if distance ≤ 0.08 then
        let r4 := { r3 with
          state := "idle"
          destination := none
          path := none
          stateEndsAt := now + 800 }
        { s with
          bots := aSet s.bots botId r4
          reservedTargets := reserved3
          rngK := k2 }
      else
        let speedMps := max 0.05 behavior.speedMps
        let durMs := max env.minWalkDurationMs (distance / speedMps * 1000)
        let t0 := now + env.pathStartDelayMs
        let desiredYaw := normalizeAngleDeg (jsAtan2 dx dz * 180 / Real.pi)
        let yaw0 := normalizeAngleDeg r3.yawDeg
        let yaw1 := desiredYaw
        let path : PathSeg := { startPos := startPos
                                endPos := endPos
                                t0 := t0
                                dur := durMs
                                yaw0 := yaw0
                                yaw1 := yaw1 }
        let r4 := { r3 with
          state := "walk"
          destination := some { name := target.name, position := endPos }
          path := some path
          stateEndsAt := t0 + durMs
          yawDeg := yaw1 }
        let s4 : Sim := { s with
          bots := aSet s.bots botId r4
          reservedTargets := reserved3
          rngK := k2 }
        sendNafr s4 (updateEntityPayload r4.networkId env.sessionId
          env.sessionId r4.lastOwnerTime (.single (buildBotPathSegment path)))) := by
  have hid1 := updateRecordPositionFromPath_id r0 now
  have hrn1 := updateRecordPositionFromPath_rtn r0 now
  dsimp only
  split
  · obtain ⟨hN, hid, hrtn, hE⟩ := reserve_inv_parts s botId r0
      (updateRecordPositionFromPath r0 now) target.name hinv hget hid1 hrn1
      (by rename_i h1; exact h1.1)
    split
    · refine reservedInv_update s _ botId _ _ hinv rfl rfl hid hN ?_
      intro r b hb
      rcases hE r b hb with ⟨hb1, hb2, hb3⟩ | h
      · subst hb3
        exact Or.inl ⟨hb1, hb2, hrtn⟩
      · exact Or.inr h
    · refine reservedInv_update s _ botId _ _ hinv rfl rfl hid hN ?_
      intro r b hb
      rcases hE r b hb with ⟨hb1, hb2, hb3⟩ | h
      · subst hb3
        exact Or.inl ⟨hb1, hb2, hrtn⟩
      · exact Or.inr h
  · obtain ⟨hN, hid, hE⟩ := release_inv_parts s botId r0
      (updateRecordPositionFromPath r0 now) hinv hget hid1 hrn1
    split
    · refine reservedInv_update s _ botId _ _ hinv rfl rfl hid hN ?_
      intro r b hb
      exact Or.inr (hE r b hb)
    · refine reservedInv_update s _ botId _ _ hinv rfl rfl hid hN ?_
      intro r b hb
      exact Or.inr (hE r b hb)

theorem startWalking_reservedInv (env : Env) (s : Sim) (botId : String)
    (dn : Option String) (now : ℝ) (hinv : ReservedInv s) :
    ReservedInv (startWalking env s botId dn now) := by
  unfold startWalking
  rcases hget : aGet s.bots botId with _ | r0
  · exact hinv
  · exact startWalking_tail_inv env s botId r0 now _ _ hinv hget

theorem setIdle_reservedInv (env : Env) (s : Sim) (botId : String)
    (now : ℝ) (hinv : ReservedInv s) :
    ReservedInv (setIdle env s botId now) := by
  unfold setIdle
  rcases hget : aGet s.bots botId with _ | r0
  · exact hinv
  · dsimp only
    obtain ⟨hN, hid, hE⟩ := release_inv_parts s botId r0
      { updateRecordPositionFromPath r0 now with
        state := "idle"
        destination := (none : Option Destination) } hinv hget
      (updateRecordPositionFromPath_id r0 now)
      (updateRecordPositionFromPath_rtn r0 now)
    refine reservedInv_update s _ botId _ _ hinv rfl rfl hid hN ?_
    intro r b hb
    exact Or.inr (hE r b hb)

theorem handleBotCommand_reservedInv (env : Env) (s : Sim)
    (botId ctype : String) (w : Option String) (hinv : ReservedInv s) :
    ReservedInv (handleBotCommand env s botId ctype w) := by
  unfold handleBotCommand
  by_cases h0 : botId = ""
  · rw [if_pos h0]
    exact hinv
  · rw [if_neg h0]
    rcases hget : aGet s.bots botId with _ | r0
    · exact hinv
    · dsimp only
      rcases w with _ | wn
      · exact hinv
      · dsimp only
        by_cases hc : ctype = "go_to_waypoint" ∧ wn ≠ ""
        · rw [if_pos hc]
          exact startWalking_reservedInv env { s with tkK := s.tkK + 1 }
            botId (some wn) _ hinv
        · rw [if_neg hc]
          exact hinv

theorem reconcileRemove_reservedInv (s : Sim) (i : ℕ)
    (hinv : ReservedInv s) : ReservedInv (reconcileRemove s i) := by
  obtain ⟨hn1, hn2, hids, hent⟩ := hinv
  unfold reconcileRemove
  dsimp only
  rcases hget : aGet s.bots ("bot-" ++ toString i) with _ | record
  · exact ⟨hn1, hn2, hids, hent⟩
  · dsimp only
    rcases hrtn : record.reservedTargetName with _ | n
    · dsimp only
      refine ⟨aKeys_aDel_nodup _ _ hn1, hn2, ?_, ?_⟩
      · intro k rec hg
        exact hids k rec (aGet_aDel_sub _ _ _ _ hn1 hg)
      · intro r b hb
        rcases hent r b hb with ⟨hne, rec, hrec, hrn⟩
        have hbne : b ≠ "bot-" ++ toString i := by
          intro hbe
          subst hbe
          rw [hget] at hrec
          injection hrec with h
          subst h
          rw [hrtn] at hrn
          cases hrn
        refine ⟨hne, rec, ?_, hrn⟩
        rw [aGet_aDel_ne _ _ _ hbne]
        exact hrec
    · dsimp only
      refine ⟨aKeys_aDel_nodup _ _ hn1, aKeys_aDel_nodup _ _ hn2, ?_, ?_⟩
      · intro k rec hg
        exact hids k rec (aGet_aDel_sub _ _ _ _ hn1 hg)
      · intro r b hb
        have hb' : aGet s.reservedTargets r = some b :=
          aGet_aDel_sub _ _ _ _ hn2 hb
        rcases hent r b hb' with ⟨hne, rec, hrec, hrn⟩
        have hbne : b ≠ "bot-" ++ toString i := by
          intro hbe
          subst hbe
          rw [hget] at hrec
          injection hrec with h
          subst h
          rw [hrtn] at hrn
          injection hrn with h2
          subst h2
          rw [aGet_aDel_self _ _ hn2] at hb
          cases hb
        refine ⟨hne, rec, ?_, hrn⟩
        rw [aGet_aDel_ne _ _ _ hbne]
        exact hrec

theorem remFold_reservedInv (L : List ℕ) (s : Sim) (hinv : ReservedInv s) :
    ReservedInv (L.foldl reconcileRemove s) := by
  induction L generalizing s with
  | nil => exact hinv
  | cons j rest ih =>
    simp only [List.foldl_cons]
    exact ih _ (reconcileRemove_reservedInv s j hinv)

theorem reconcileAddOne_reservedInv (env : Env) (now : ℝ)
    (acc : Sim × List Vec3) (i : ℕ) (hinv : ReservedInv acc.1) :
    ReservedInv (reconcileAddOne env now acc i).1 := by
  unfold reconcileAddOne
  dsimp only
  rcases hget : aGet acc.1.bots ("bot-" ++ toString i) with _ | record
  · obtain ⟨hn1, hn2, hids, hent⟩ := hinv
    dsimp only [sendNaf]
    refine ⟨aKeys_aSet_nodup _ _ _ hn1, hn2, ?_, ?_⟩
    · intro k rec hg
      by_cases hk : k = "bot-" ++ toString i
      · subst hk
        rw [aGet_aSet_self] at hg
        injection hg with h
        rw [← h]
      · rw [aGet_aSet_ne _ _ _ _ hk] at hg
        exact hids k rec hg
    · intro r b hb
      rcases hent r b hb with ⟨hne, rec, hrec, hrn⟩
      have hbne : b ≠ "bot-" ++ toString i := by
        intro hbe
        subst hbe
        rw [hget] at hrec
        cases hrec
      refine ⟨hne, rec, ?_, hrn⟩
      rw [aGet_aSet_ne _ _ _ _ hbne]
      exact hrec
  · exact hinv

theorem addFold_reservedInv (env : Env) (now : ℝ) (L : List ℕ)
    (acc : Sim × List Vec3) (hinv : ReservedInv acc.1) :
    ReservedInv ((L.foldl (reconcileAddOne env now) acc).1) := by
  induction L generalizing acc with
  | nil => exact hinv
  | cons j rest ih =>
    simp only [List.foldl_cons]
    exact ih _ (reconcileAddOne_reservedInv env now acc j hinv)

theorem aGet_map_mobility (l : List (String × BotRecord)) (m : String)
    (k : String) :
    aGet (l.map (fun kv => (kv.1, { kv.2 with mobility := m }))) k
      = (aGet l k).map (fun rec => { rec with mobility := m }) := by
  induction l with
  | nil => rfl
  | cons kv rest ih =>
    obtain ⟨k', v'⟩ := kv
    by_cases h : k' = k
    · simp [aGet, h]
    · simp [aGet, h, ih]

theorem mapMobility_reservedInv (s' s : Sim) (m : String)
    (hb : s'.bots = s.bots.map (fun kv => (kv.1, { kv.2 with mobility := m })))
    (hr : s'.reservedTargets = s.reservedTargets)
    (hinv : ReservedInv s) : ReservedInv s' := by
  obtain ⟨hn1, hn2, hids, hent⟩ := hinv
  refine ⟨?_, ?_, ?_, ?_⟩
  · rw [hb, aKeys_map_mobility]
    exact hn1
  · rw [hr]
    exact hn2
  · rw [hb]
    intro k rec hg
    rw [aGet_map_mobility] at hg
    rcases ho : aGet s.bots k with _ | rec0
    · rw [ho] at hg
      cases hg
    · rw [ho] at hg
      injection hg with h
      rw [← h]
      exact hids k rec0 ho
  · rw [hr, hb]
    intro r b hbent
    rcases hent r b hbent with ⟨hne, rec, hrec, hrn⟩
    refine ⟨hne, { rec with mobility := m }, ?_, hrn⟩
    rw [aGet_map_mobility, hrec]
    rfl

theorem reconcileBots_reservedInv (env : Env) (s : Sim) (now : ℝ)
    (hinv : ReservedInv s) : ReservedInv (reconcileBots env s now) := by
  unfold reconcileBots
  by_cases hd : s.botsConfig.enabled = false ∨ s.botsConfig.count = 0
  · rw [if_pos hd]
    by_cases hb : s.bots.length ≠ 0
    · rw [if_pos hb]
      refine ⟨List.nodup_nil, List.nodup_nil, ?_, ?_⟩
      · intro k rec h
        cases h
      · intro r b h
        cases h
    · rw [if_neg hb]
      exact hinv
  · rw [if_neg hd]
    dsimp only
    exact mapMobility_reservedInv _ _ _ rfl rfl
      (addFold_reservedInv env now _ _ (remFold_reservedInv _ s hinv))

/-- C2 (amended): the direction of the reservation invariant that the code
maintains.  From any state satisfying `ReservedInv`, every completed
simulator operation (reconciliation, start_walking, set_idle, command
handling) yields a state in which every `ReservationIndex` entry still
names a non-empty waypoint and points at a live record currently holding
that reservation, keys stay duplicate-free and records keyed by their ids.
The spec's converse direction (every record reservation is indexed under
this bot, held by exactly one record) is refuted by `C2_counterexample`. -/
theorem C2_reservation_invariant_amended (env : Env) (s : Sim) (now : ℝ)
    (hinv : ReservedInv s) :
    ReservedInv (reconcileBots env s now) ∧
    (∀ botId dn, ReservedInv (startWalking env s botId dn now)) ∧
    (∀ botId, ReservedInv (setIdle env s botId now)) ∧
    (∀ botId ctype w, ReservedInv (handleBotCommand env s botId ctype w)) :=
  ⟨reconcileBots_reservedInv env s now hinv,
   fun botId dn => startWalking_reservedInv env s botId dn now hinv,
   fun botId => setIdle_reservedInv env s botId now hinv,
   fun botId ctype w => handleBotCommand_reservedInv env s botId ctype w hinv⟩

theorem C2_reservation_invariant_amended_witness :
    ReservedInv (reconcileBots envC9 sC4 0) ∧
    (∀ botId dn, ReservedInv (startWalking envC9 sC4 botId dn 0)) ∧
    (∀ botId, ReservedInv (setIdle envC9 sC4 botId 0)) ∧
    (∀ botId ctype w, ReservedInv (handleBotCommand envC9 sC4 botId ctype w)) :=
  C2_reservation_invariant_amended envC9 sC4 0
    ⟨List.nodup_nil, List.nodup_nil,
     fun k rec h => absurd h (by simp [sC4, aGet]),
     fun r b h => absurd h (by simp [sC4, aGet])⟩

noncomputable def envC2 : Env :=
  { rng := fun _ => 0
    tk := fun _ => 0
    raycastMode := "none"
    pathStartDelayMs := 450
    minWalkDurationMs := 600
    hubSid := "hub"
    sessionId := "sess"
    avatarRefs := []
    fullbodyRefs := []
    avatarRotationOffset := 0 }

noncomputable def recC2a : BotRecord :=
  { id := "bot-1"
    networkId := "room-bot-hub-bot-1"
    lastOwnerTime := 0
    position := { x := 10, y := 0, z := 10 }
    homePosition := { x := 10, y := 0, z := 10 }
    yawDeg := 0
    state := "idle"
    stateEndsAt := 0
    mobility := "medium"
    destination := none
    reservedTargetName := some "spawbot-north"
    path := none }

noncomputable def recC2b : BotRecord :=
  { id := "bot-2"
    networkId := "room-bot-hub-bot-2"
    lastOwnerTime := 0
    position := { x := 0, y := 0, z := 0 }
    homePosition := { x := 0, y := 0, z := 0 }
    yawDeg := 0
    state := "idle"
    stateEndsAt := 0
    mobility := "medium"
    destination := none
    reservedTargetName := none
    path := none }

noncomputable def sC2 : Sim :=
  { botsConfig := { enabled := true
                    count := 2
                    mobility := "medium"
                    chat_enabled := true }
    waypointData := { spawnPoints := []
                      patrolPoints := []
                      allWaypoints := [wpC3]
                      colliders := [] }
    bots := [(("bot-1" : String), recC2a), (("bot-2" : String), recC2b)]
    reservedTargets := [(("spawbot-north" : String), ("bot-1" : String))]
    outputs := []
    rngK := 0
    tkK := 0 }

theorem sC2_ids : ∀ k rec, aGet sC2.bots k = some rec → rec.id = k := by
  intro k rec h
  rw [show sC2.bots = [(("bot-1" : String), recC2a),
    (("bot-2" : String), recC2b)] from rfl] at h
  simp only [aGet] at h
  by_cases h1 : ("bot-1" : String) = k
  · rw [if_pos h1] at h
    injection h with h2
    rw [← h2, ← h1]
    rfl
  · rw [if_neg h1] at h
    by_cases h2 : ("bot-2" : String) = k
    · rw [if_pos h2] at h
      injection h with h3
      rw [← h3, ← h2]
      rfl
    · rw [if_neg h2] at h
      cases h

theorem sC2_entries : ∀ r b, aGet sC2.reservedTargets r = some b →
    r ≠ "" ∧ ∃ rec, aGet sC2.bots b = some rec ∧
      rec.reservedTargetName = some r := by
  intro r b h
  rw [show sC2.reservedTargets
    = [(("spawbot-north" : String), ("bot-1" : String))] from rfl] at h
  simp only [aGet] at h
  by_cases h1 : ("spawbot-north" : String) = r
  · rw [if_pos h1] at h
    injection h with h2
    subst h1
    refine ⟨by decide, recC2a, ?_, rfl⟩
    rw [← h2]
    rfl
  · rw [if_neg h1] at h
    cases h

theorem sC2_inv : ReservedInv sC2 :=
  ⟨by decide, by decide, sC2_ids, sC2_entries⟩

theorem sC2_records : ∀ k rec, aGet sC2.bots k = some rec →
    ∀ r, rec.reservedTargetName = some r →
      aGet sC2.reservedTargets r = some k := by
  intro k rec h r hr
  rw [show sC2.bots = [(("bot-1" : String), recC2a),
    (("bot-2" : String), recC2b)] from rfl] at h
  simp only [aGet] at h
  by_cases h1 : ("bot-1" : String) = k
  · rw [if_pos h1] at h
    injection h with h2
    rw [← h2] at hr
    rw [show recC2a.reservedTargetName = some ("spawbot-north" : String)
      from rfl] at hr
    injection hr with h3
    rw [← h3, ← h1]
    rfl
  · rw [if_neg h1] at h
    by_cases h2 : ("bot-2" : String) = k
    · rw [if_pos h2] at h
      injection h with h3
      rw [← h3] at hr
      rw [show recC2b.reservedTargetName = (none : Option String)
        from rfl] at hr
      cases hr
    · rw [if_neg h2] at h
      cases h

set_option maxHeartbeats 1000000 in
theorem C2cx :
    aGet (startWalking envC2 sC2 ("bot-2")
      (some ("spawbot-north")) 0).reservedTargets ("spawbot-north")
      = some ("bot-2") ∧
    ∃ rec, aGet (startWalking envC2 sC2 ("bot-2")
        (some ("spawbot-north")) 0).bots ("bot-1") = some rec ∧
      rec.reservedTargetName = some ("spawbot-north") := by
  unfold startWalking
  rw [show aGet sC2.bots ("bot-2") = some recC2b from rfl]
  dsimp only
  rw [if_neg (show ¬(("spawbot-north" : String) = "") from by decide)]
  rw [show sC2.waypointData.allWaypoints.find?
      (fun p => jsLower (jsTrim p.name) = jsLower (jsTrim ("spawbot-north")))
      = some wpC3 from by
    simp only [sC2]
    exact List.find?_cons_of_pos _ (by decide)]
  dsimp only
  rw [if_neg (show ¬(envC2.raycastMode = "spoke_colliders") from by decide)]
  dsimp only
  rw [if_pos (show wpC3.name ≠ "" ∧ wpC3.name ≠ "__wander__" from by decide)]
  rw [show reserveTarget sC2.reservedTargets
      (updateRecordPositionFromPath recC2b 0) wpC3.name
      = ([(("spawbot-north" : String), ("bot-2" : String))],
         { recC2b with reservedTargetName := some ("spawbot-north" : String) })
    from rfl]
  dsimp only
  rw [show botIndexFromId recC2b.id = 1 from by decide]
  rw [show separateNearbyPosition wpC3.position 1 []
    = wpC3.position from by simp [separateNearbyPosition]]
  rw [show recC2b.position.x = 0 from rfl]
  rw [show recC2b.position.z = 0 from rfl]
  rw [show wpC3.position.x = 3 from rfl]
  rw [show wpC3.position.z = 0 from rfl]
  rw [show ((3 : ℝ) - 0) * ((3 : ℝ) - 0) + ((0 : ℝ) - 0) * ((0 : ℝ) - 0) = 9
    from by norm_num]
  rw [sqrt_nine]
  rw [if_neg (show ¬((3 : ℝ) ≤ 0.08) from by norm_num)]
  refine ⟨rfl, recC2a, ?_, rfl⟩
  dsimp only [sendNafr]
  rw [aGet_aSet_ne _ _ _ _ (by decide)]
  rfl

/-- C2 counterexample: `sC2` satisfies both directions of the spec's
reservation invariant (P4/I2), yet after one completed `start_walking`
command bot-2 steals bot-1's reservation of `spawbot-north`: the index
maps the waypoint to bot-2 while the live record of bot-1 still carries
`reserved_target_name = "spawbot-north"` - two live records hold the name
and bot-1's record no longer matches the index. -/
theorem C2_counterexample :
    ReservedInv sC2 ∧
    (∀ k rec, aGet sC2.bots k = some rec →
      ∀ r, rec.reservedTargetName = some r →
        aGet sC2.reservedTargets r = some k) ∧
    aGet (startWalking envC2 sC2 ("bot-2")
      (some ("spawbot-north")) 0).reservedTargets ("spawbot-north")
      = some ("bot-2") ∧
    ∃ rec, aGet (startWalking envC2 sC2 ("bot-2")
        (some ("spawbot-north")) 0).bots ("bot-1") = some rec ∧
      rec.reservedTargetName = some ("spawbot-north") :=
  ⟨sC2_inv, sC2_records, C2cx.1, C2cx.2⟩
